import Mathlib

/-!
Verification development for the persistence layer of the trufos repository
(file src/main/persistence/service/persistence-service.ts).

The service maps an in-memory tree of API-testing artifacts (a collection
containing folders and requests) onto a directory-per-object file system
layout, with a draft overlay mechanism for uncommitted edits.

The embedding below models:
  - paths as lists of path segments (path.join appends a segment,
    path.dirname drops the last segment, path.basename takes it);
  - the file system as a tree of directories and files;
  - the service state (file system, the idToPathMap path index and the
    uuid source) passed explicitly; every operation returns the state as
    mutated up to the point where an exception, if any, was thrown, which
    matches the JavaScript semantics of mutable fields and exceptions;
  - fallible operations return an Except value next to the mutated state.

Types that live in files of the repository outside the given source
(shim/objects, info-files.ts) are modelled from the specification; this is
noted on each such definition.
-/

/-- Body type tag of a request body (RequestBodyType in shim/objects/request).
Modelled from the spec: a body is inline text, file-backed text, or some
other typed body; the persistence layer only distinguishes the TEXT kind. -/
inductive RequestBodyType where
  | text
  | other
deriving DecidableEq, Repr

/-- Request body record (TextBody in shim/objects/request). Modelled from the
spec: a typed body carrying an optional inline text value; the inline value is
absent when the body is file-backed. -/
structure RequestBody where
  bodyType : RequestBodyType
  text : Option String
deriving DecidableEq, Repr

/-- On-disk JSON document of an object's persistable fields (info-files.ts).
Modelled from the spec: the codec keeps every persistable field of the entity
(title, and the variant-specific fields: variables of a collection, method,
headers and body of a request) and excludes the transient ones (identifier,
parent identifier, children, draft flag); a version field, if present, is
stripped on load and not otherwise interpreted. -/
structure InfoFile where
  title : String
  vars : Option (List (String × String))
  method : Option String
  headers : Option (List (String × String))
  body : Option RequestBody
  version : Option Nat
deriving DecidableEq, Repr

/-- Content of one file on disk: either a parsed JSON info document or an
opaque blob (the text body files). -/
inductive FileContent where
  | json (info : InfoFile)
  | blob (s : String)
deriving DecidableEq, Repr

/-- A node of the modelled file system: a file with content, or a directory
with a list of named entries (insertion-ordered, names unique by usage). -/
inductive FsNode where
  | file (content : FileContent)
  | dir (entries : List (String × FsNode))

/-- The in-memory tree of model objects (RufusObject = Collection | Folder |
RufusRequest from shim/objects). Identifier and parent identifier are
optional: they are absent until first assigned, as in the source. Collection
carries its externally supplied directory path. Modelled from the spec's data
model; the source file only consumes these types. -/
inductive RufusObject where
  | collection (id : Option String) (title : String)
      (vars : Option (List (String × String))) (dirPath : List String)
      (children : List RufusObject)
  | folder (id : Option String) (parentId : Option String) (title : String)
      (children : List RufusObject)
  | request (id : Option String) (parentId : Option String) (title : String)
      (method : Option String) (headers : Option (List (String × String)))
      (body : Option RequestBody) (draft : Bool)

mutual

def fsNodeDecEq : (a b : FsNode) → Decidable (a = b)
  | .file c1, .file c2 =>
    if h : c1 = c2 then isTrue (by rw [h]) else
      isFalse (by intro hq; cases hq; exact h rfl)
  | .file _, .dir _ => isFalse (by intro hq; cases hq)
  | .dir _, .file _ => isFalse (by intro hq; cases hq)
  | .dir es1, .dir es2 =>
    match fsEntriesDecEq es1 es2 with
    | isTrue h => isTrue (by rw [h])
    | isFalse h => isFalse (by intro hq; cases hq; exact h rfl)

def fsEntriesDecEq : (a b : List (String × FsNode)) → Decidable (a = b)
  | [], [] => isTrue rfl
  | [], _ :: _ => isFalse (by intro hq; cases hq)
  | _ :: _, [] => isFalse (by intro hq; cases hq)
  | (k1, n1) :: r1, (k2, n2) :: r2 =>
    match fsNodeDecEq n1 n2, fsEntriesDecEq r1 r2 with
    | isTrue h1, isTrue h2 =>
      if h : k1 = k2 then isTrue (by rw [h, h1, h2]) else
        isFalse (by intro hq; cases hq; exact h rfl)
    | isFalse h1, _ => isFalse (by intro hq; cases hq; exact h1 rfl)
    | _, isFalse h2 => isFalse (by intro hq; cases hq; exact h2 rfl)

end

instance : DecidableEq FsNode := fsNodeDecEq

mutual

def rufusDecEq : (a b : RufusObject) → Decidable (a = b)
  | .collection i1 t1 v1 d1 c1, .collection i2 t2 v2 d2 c2 =>
    match rufusListDecEq c1 c2 with
    | isTrue hc =>
      if h : i1 = i2 ∧ t1 = t2 ∧ v1 = v2 ∧ d1 = d2 then
        isTrue (by obtain ⟨h1, h2, h3, h4⟩ := h; rw [h1, h2, h3, h4, hc])
      else isFalse (by intro hq; cases hq; exact h ⟨rfl, rfl, rfl, rfl⟩)
    | isFalse hc => isFalse (by intro hq; cases hq; exact hc rfl)
  | .folder i1 p1 t1 c1, .folder i2 p2 t2 c2 =>
    match rufusListDecEq c1 c2 with
    | isTrue hc =>
      if h : i1 = i2 ∧ p1 = p2 ∧ t1 = t2 then
        isTrue (by obtain ⟨h1, h2, h3⟩ := h; rw [h1, h2, h3, hc])
      else isFalse (by intro hq; cases hq; exact h ⟨rfl, rfl, rfl⟩)
    | isFalse hc => isFalse (by intro hq; cases hq; exact hc rfl)
  | .request i1 p1 t1 m1 h1 b1 f1, .request i2 p2 t2 m2 h2 b2 f2 =>
    if h : i1 = i2 ∧ p1 = p2 ∧ t1 = t2 ∧ m1 = m2 ∧ h1 = h2 ∧ b1 = b2 ∧ f1 = f2 then
      isTrue (by
        obtain ⟨ha, hb, hc, hd, he, hf, hg⟩ := h
        rw [ha, hb, hc, hd, he, hf, hg])
    else isFalse (by intro hq; cases hq; exact h ⟨rfl, rfl, rfl, rfl, rfl, rfl, rfl⟩)
  | .collection _ _ _ _ _, .folder _ _ _ _ => isFalse (by intro hq; cases hq)
  | .collection _ _ _ _ _, .request _ _ _ _ _ _ _ => isFalse (by intro hq; cases hq)
  | .folder _ _ _ _, .collection _ _ _ _ _ => isFalse (by intro hq; cases hq)
  | .folder _ _ _ _, .request _ _ _ _ _ _ _ => isFalse (by intro hq; cases hq)
  | .request _ _ _ _ _ _ _, .collection _ _ _ _ _ => isFalse (by intro hq; cases hq)
  | .request _ _ _ _ _ _ _, .folder _ _ _ _ => isFalse (by intro hq; cases hq)

def rufusListDecEq : (a b : List RufusObject) → Decidable (a = b)
  | [], [] => isTrue rfl
  | [], _ :: _ => isFalse (by intro hq; cases hq)
  | _ :: _, [] => isFalse (by intro hq; cases hq)
  | c :: cs, d :: ds =>
    match rufusDecEq c d, rufusListDecEq cs ds with
    | isTrue h1, isTrue h2 => isTrue (by rw [h1, h2])
    | isFalse h1, _ => isFalse (by intro hq; cases hq; exact h1 rfl)
    | _, isFalse h2 => isFalse (by intro hq; cases hq; exact h2 rfl)

end

instance : DecidableEq RufusObject := rufusDecEq

/-- Type tag of an object, as the string used in file names (object.type). -/
def RufusObject.typeName : RufusObject → String
  | .collection _ _ _ _ _ => "collection"
  | .folder _ _ _ _ => "folder"
  | .request _ _ _ _ _ _ _ => "request"

/-- Predicate isCollection from shim/objects. -/
def RufusObject.isCollection : RufusObject → Bool
  | .collection _ _ _ _ _ => true
  | _ => false

/-- Predicate isFolder from shim/objects. -/
def RufusObject.isFolder : RufusObject → Bool
  | .folder _ _ _ _ => true
  | _ => false

/-- Predicate isRequest from shim/objects. -/
def RufusObject.isRequest : RufusObject → Bool
  | .request _ _ _ _ _ _ _ => true
  | _ => false

/-- Field access object.id (absent until first assigned). -/
def RufusObject.id : RufusObject → Option String
  | .collection i _ _ _ _ => i
  | .folder i _ _ _ => i
  | .request i _ _ _ _ _ _ => i

/-- Field access object.parentId; a collection has none. -/
def RufusObject.parentId : RufusObject → Option String
  | .collection _ _ _ _ _ => none
  | .folder _ p _ _ => p
  | .request _ p _ _ _ _ _ => p

/-- Field access object.title. -/
def RufusObject.title : RufusObject → String
  | .collection _ t _ _ _ => t
  | .folder _ _ t _ => t
  | .request _ _ t _ _ _ _ => t

/-- Field access collection.dirPath (empty for non-collections, never used). -/
def RufusObject.dirPath : RufusObject → List String
  | .collection _ _ _ d _ => d
  | _ => []

/-- Field access object.children (empty for a request, which has none). -/
def RufusObject.children : RufusObject → List RufusObject
  | .collection _ _ _ _ cs => cs
  | .folder _ _ _ cs => cs
  | .request _ _ _ _ _ _ _ => []

/-- Field access request.draft (false for non-requests, which carry no flag). -/
def RufusObject.draft : RufusObject → Bool
  | .request _ _ _ _ _ _ f => f
  | _ => false

/-- Field access request.body. -/
def RufusObject.body : RufusObject → Option RequestBody
  | .request _ _ _ _ _ b _ => b
  | _ => none

/-- Field assignment object.id = v. -/
def RufusObject.setId : RufusObject → Option String → RufusObject
  | .collection _ t v d cs, i => .collection i t v d cs
  | .folder _ p t cs, i => .folder i p t cs
  | .request _ p t m h b f, i => .request i p t m h b f

/-- Field assignment object.title = v. -/
def RufusObject.setTitle : RufusObject → String → RufusObject
  | .collection i _ v d cs, t => .collection i t v d cs
  | .folder i p _ cs, t => .folder i p t cs
  | .request i p _ m h b f, t => .request i p t m h b f

/-- Field assignment request.draft = v (no effect on non-requests). -/
def RufusObject.setDraft : RufusObject → Bool → RufusObject
  | .request i p t m h b _, f => .request i p t m h b f
  | o, _ => o

/-- Field assignment request.body = v (no effect on non-requests). -/
def RufusObject.setBody : RufusObject → Option RequestBody → RufusObject
  | .request i p t m h _ f, b => .request i p t m h b f
  | o, _ => o

/-- Field assignment object.children = v (no effect on requests). -/
def RufusObject.setChildren : RufusObject → List RufusObject → RufusObject
  | .collection i t v d _, cs => .collection i t v d cs
  | .folder i p t _, cs => .folder i p t cs
  | o, _ => o

/-- Lookup of a key in an insertion-ordered association list (the shared
model of a JavaScript Map and of a directory's entry list). -/
def assocGet {K V : Type} [BEq K] (m : List (K × V)) (k : K) : Option V :=
  (m.find? (fun e => e.1 == k)).map (fun e => e.2)

/-- Insertion or overwrite of a key in an insertion-ordered association
list: an existing binding is replaced in place, a new one appended. -/
def assocSet {K V : Type} [BEq K] (m : List (K × V)) (k : K) (v : V) :
    List (K × V) :=
  if m.any (fun e => e.1 == k) then
    m.map (fun e => if e.1 == k then (k, v) else e)
  else m ++ [(k, v)]

/-- Removal of a key from an insertion-ordered association list. -/
def assocDel {K V : Type} [BEq K] (m : List (K × V)) (k : K) : List (K × V) :=
  m.filter (fun e => !(e.1 == k))

/-- Lookup in the idToPathMap (JavaScript Map.get); keys are the raw id
fields, which may be absent as in the source. -/
def mapGet (m : List (Option String × List String)) (k : Option String) :
    Option (List String) :=
  assocGet m k

/-- Insertion/overwrite in the idToPathMap (JavaScript Map.set). -/
def mapSet (m : List (Option String × List String)) (k : Option String)
    (v : List String) : List (Option String × List String) :=
  assocSet m k v

/-- Removal from the idToPathMap (JavaScript Map.delete). -/
def mapDelete (m : List (Option String × List String)) (k : Option String) :
    List (Option String × List String) :=
  assocDel m k

/-- Membership in the idToPathMap (JavaScript Map.has). -/
def mapHas (m : List (Option String × List String)) (k : Option String) : Bool :=
  (mapGet m k).isSome

/-- Lookup of a named entry in a directory's entry list. -/
def entGet (es : List (String × FsNode)) (k : String) : Option FsNode :=
  assocGet es k

/-- Insertion/overwrite of a named entry in a directory's entry list. -/
def entSet (es : List (String × FsNode)) (k : String) (v : FsNode) :
    List (String × FsNode) :=
  assocSet es k v

/-- Removal of a named entry from a directory's entry list. -/
def entDel (es : List (String × FsNode)) (k : String) : List (String × FsNode) :=
  assocDel es k

/-- Resolution of a path in the file system tree. -/
def FsNode.lookup : FsNode → List String → Option FsNode
  | n, [] => some n
  | .file _, _ :: _ => none
  | .dir es, x :: rest =>
    match entGet es x with
    | some child => child.lookup rest
    | none => none

/-- Existence probe (the exists helper from main/util/fs-util): true when the
path resolves to a file or directory. -/
def fsExistsPath (fs : FsNode) (p : List String) : Bool :=
  (fs.lookup p).isSome

/-- Placement of a node at a path, overwriting any entry already there; fails
(like the underlying file system call) when an intermediate directory is
missing or a non-directory stands in the way. -/
def FsNode.setAt : FsNode → List String → FsNode → Option FsNode
  | _, [], v => some v
  | .file _, _ :: _, _ => none
  | .dir es, [x], v => some (.dir (entSet es x v))
  | .dir es, x :: rest :: rests, v =>
    match entGet es x with
    | some child => (child.setAt (rest :: rests) v).map (fun c => .dir (entSet es x c))
    | none => none

/-- Removal of the node at a path (with its whole subtree); fails when the
path does not resolve. -/
def FsNode.removeAt : FsNode → List String → Option FsNode
  | _, [] => none
  | .file _, _ :: _ => none
  | .dir es, [x] =>
    if es.any (fun e => e.1 == x) then some (.dir (entDel es x)) else none
  | .dir es, x :: rest :: rests =>
    match entGet es x with
    | some child => (child.removeAt (rest :: rests)).map (fun c => .dir (entSet es x c))
    | none => none

/-- Embedding of fs.writeFile: creates or truncates the file at the path; the
parent directory must exist. -/
def fsWriteFile (fs : FsNode) (p : List String) (content : FileContent) :
    Option FsNode :=
  fs.setAt p (.file content)

/-- Embedding of fs.mkdir (non-recursive): fails if the path already exists
or the parent directory is missing. -/
def fsMkdir (fs : FsNode) (p : List String) : Option FsNode :=
  if fsExistsPath fs p then none else fs.setAt p (.dir [])

/-- Embedding of fs.unlink: removes the file at the path; fails on a missing
path or a directory. -/
def fsUnlink (fs : FsNode) (p : List String) : Option FsNode :=
  match fs.lookup p with
  | some (.file _) => fs.removeAt p
  | _ => none

/-- Embedding of fs.rename: moves the node (file or whole directory subtree)
from the old path to the new path, overwriting a previous entry at the new
path; fails when the old path is missing or the new path's parent is. -/
def fsRename (fs : FsNode) (oldPath newPath : List String) : Option FsNode :=
  match fs.lookup oldPath with
  | some n => (fs.removeAt oldPath).bind (fun fs1 => fs1.setAt newPath n)
  | none => none

/-- Embedding of fs.rm with the recursive flag: removes the subtree at the
path; fails when the path is missing. -/
def fsRm (fs : FsNode) (p : List String) : Option FsNode :=
  fs.removeAt p

/-- Whitespace test of the JavaScript regular expression class backslash-s,
on the Basic Latin range (characters beyond it are stripped by the character
filter of sanitizeTitle anyway). -/
def jsWhitespace (c : Char) : Bool :=
  c == ' ' || c == '\t' || c == '\n' || c == '\r' || c == '\x0b' || c == '\x0c'

/-- Lower-casing of one character as String.prototype.toLowerCase does on the
Basic Latin range (characters beyond it pass through here; every character
outside lowercase ASCII letters, digits and hyphen is stripped by the final
filter of sanitizeTitle, so this restriction does not affect the stated
properties). -/
def jsToLowerChar (c : Char) : Char :=
  if 'A' ≤ c ∧ c ≤ 'Z' then Char.ofNat (c.toNat + 32) else c

/-- Character class test for the regular expression [a-z0-9-]. -/
def allowedChar (c : Char) : Bool :=
  ('a' ≤ c && c ≤ 'z') || ('0' ≤ c && c ≤ '9') || c == '-'

/-- Embedding of sanitizeTitle: lower-case the title, replace every whitespace
character with a hyphen, then strip every character outside [a-z0-9-]. -/
def sanitizeTitle (title : String) : String :=
  ⟨(((title.data.map jsToLowerChar).map
      (fun c => if jsWhitespace c then '-' else c)).filter allowedChar)⟩

/-- Embedding of getDirName: the sanitized title of the object. -/
def getDirName (o : RufusObject) : String :=
  sanitizeTitle o.title

/-- Mutable state of the PersistenceService together with the file system it
acts on: the file system root, the idToPathMap path index, the source of
fresh uuid values, and a log of the paths passed to fs.rm in order (recording
the observable order of directory removals). -/
structure St where
  fs : FsNode
  idToPathMap : List (Option String × List String)
  nextId : Nat
  rmLog : List (List String)
deriving DecidableEq

/-- Fresh identifier produced by the n-th call of uuidv4. -/
def uuidStr (n : Nat) : String :=
  "uuid-" ++ toString n

/-- File name of the canonical text body file (shim/objects/request).
Modelled from the spec's on-disk layout: body.txt. -/
def TEXT_BODY_FILE_NAME : String := "body.txt"

/-- File name of the draft text body file (shim/objects/request). Modelled
from the spec's on-disk layout: the tilde-prefixed body.txt. -/
def DRAFT_TEXT_BODY_FILE_NAME : String := "~body.txt"

/-- Decidable equality for Except values, needed to evaluate the embedded
operations on concrete inputs. -/
def exceptDecEq {e a : Type} [DecidableEq e] [DecidableEq a] :
    (x y : Except e a) → Decidable (x = y)
  | .ok v1, .ok v2 =>
    if h : v1 = v2 then isTrue (by rw [h]) else
      isFalse (by intro hq; cases hq; exact h rfl)
  | .ok _, .error _ => isFalse (by intro hq; cases hq)
  | .error _, .ok _ => isFalse (by intro hq; cases hq)
  | .error e1, .error e2 =>
    if h : e1 = e2 then isTrue (by rw [h]) else
      isFalse (by intro hq; cases hq; exact h rfl)

instance {e a : Type} [DecidableEq e] [DecidableEq a] : DecidableEq (Except e a) :=
  exceptDecEq

/-- Errors surfacing from the embedded operations. mustHaveParent is the
invariant error thrown by saveInfoFile; typeError is the TypeError a path
helper (path.join, path.basename) throws when handed undefined; ioError is
any error of an underlying file system call; jsonError a JSON.parse failure;
cannotDetermineType the load error for an unclassifiable directory. -/
inductive PError where
  | mustHaveParent
  | typeError
  | ioError
  | jsonError
  | cannotDetermineType (dirPath : List String)
deriving DecidableEq, Repr

/-- Embedding of getDirPath: a collection resolves to its stored dirPath; an
object with a recorded path index entry resolves to that entry; otherwise the
path is derived from the parent's recorded path plus the object's dir name.
When the parent id has no recorded path, the source calls path.join with
undefined, which throws a TypeError. -/
def getDirPath (st : St) (o : RufusObject) : Except PError (List String) :=
  if o.isCollection then .ok o.dirPath
  else match mapGet st.idToPathMap o.id with
  | some p => .ok p
  | none =>
    match mapGet st.idToPathMap o.parentId with
    | some parentDirPath => .ok (parentDirPath ++ [getDirName o])
    | none => .error .typeError

/-- Embedding of toInfoFile from info-files.ts. Modelled from the spec: the
codec keeps the persistable fields of the entity and excludes identifier,
parent identifier, children and the draft flag; no version field is written. -/
def toInfoFile (o : RufusObject) : InfoFile :=
  match o with
  | .collection _ t v _ _ =>
    { title := t, vars := v, method := none, headers := none, body := none,
      version := none }
  | .folder _ _ t _ =>
    { title := t, vars := none, method := none, headers := none, body := none,
      version := none }
  | .request _ _ t m h b _ =>
    { title := t, vars := none, method := m, headers := h, body := b,
      version := none }

/-- Embedding of saveInfoFile: first the log statement assigns a fresh uuid to
object.id when it is absent; then the invariant check throws when a
non-collection object has no parent id; otherwise the directory is created if
missing, the info file is written, and the path index entry is recorded. The
returned object carries the possibly assigned id; the returned state carries
every mutation made before a thrown error. -/
def saveInfoFile (st : St) (o : RufusObject) (dirPath : List String)
    (fileName : String) : St × RufusObject × Except PError Unit :=
  let (o, st) :=
    if o.id.isNone then
      (o.setId (some (uuidStr st.nextId)), { st with nextId := st.nextId + 1 })
    else (o, st)
  if !o.isCollection && o.parentId.isNone then (st, o, .error .mustHaveParent)
  else
    let fsStep : Except PError FsNode :=
      if fsExistsPath st.fs dirPath then .ok st.fs
      else
        match fsMkdir st.fs dirPath with
        | some fs1 => .ok fs1
        | none => .error .ioError
    match fsStep with
    | .error e => (st, o, .error e)
    | .ok fs1 =>
      match fsWriteFile fs1 (dirPath ++ [fileName]) (.json (toInfoFile o)) with
      | none => ({ st with fs := fs1 }, o, .error .ioError)
      | some fs2 =>
        ({ st with
            fs := fs2,
            idToPathMap := mapSet st.idToPathMap o.id dirPath }, o, .ok ())

/-- Embedding of saveRequest: saves the info file under the draft or canonical
name matching the draft flag; then, if a text body is provided, normalizes the
in-memory body to file-backed text and writes the body file (draft or
canonical, matching the draft flag); otherwise deletes the canonical body
file when it exists. -/
def saveRequest (st : St) (request : RufusObject) (textBody : Option String) :
    St × RufusObject × Except PError Unit :=
  match getDirPath st request with
  | .error e => (st, request, .error e)
  | .ok dirPath =>
    let infoFileName :=
      (if request.draft then "~" else "") ++ request.typeName ++ ".json"
    match saveInfoFile st request dirPath infoFileName with
    | (st1, request1, .error e) => (st1, request1, .error e)
    | (st1, request1, .ok _) =>
      match textBody with
      | some text =>
        match request1.body with
        | none => (st1, request1, .error .typeError)
        | some b =>
          let request2 :=
            request1.setBody (some { b with bodyType := .text, text := none })
          let fileName :=
            if request2.draft then DRAFT_TEXT_BODY_FILE_NAME
            else TEXT_BODY_FILE_NAME
          match fsWriteFile st1.fs (dirPath ++ [fileName]) (.blob text) with
          | some fs2 => ({ st1 with fs := fs2 }, request2, .ok ())
          | none => (st1, request2, .error .ioError)
      | none =>
        if fsExistsPath st1.fs (dirPath ++ [TEXT_BODY_FILE_NAME]) then
          match fsUnlink st1.fs (dirPath ++ [TEXT_BODY_FILE_NAME]) with
          | some fs2 => ({ st1 with fs := fs2 }, request1, .ok ())
          | none => (st1, request1, .error .ioError)
        else (st1, request1, .ok ())

/-- Embedding of saveCollection: saves the collection's info file under its
canonical name at its directory path. -/
def saveCollection (st : St) (collection : RufusObject) :
    St × RufusObject × Except PError Unit :=
  match getDirPath st collection with
  | .error e => (st, collection, .error e)
  | .ok dirPath => saveInfoFile st collection dirPath (collection.typeName ++ ".json")

/-- Embedding of saveFolder: saves the folder's info file under its canonical
name at its directory path. -/
def saveFolder (st : St) (folder : RufusObject) :
    St × RufusObject × Except PError Unit :=
  match getDirPath st folder with
  | .error e => (st, folder, .error e)
  | .ok dirPath => saveInfoFile st folder dirPath (folder.typeName ++ ".json")

/-- Embedding of undraft: unconditionally clears the object's draft flag,
then probes for the draft info file; returns none when no draft file exists
and the directory path plus info file name when one does. -/
def undraft (st : St) (object : RufusObject) :
    St × RufusObject × Except PError (Option (List String × String)) :=
  let object := object.setDraft false
  let infoFileName := object.typeName ++ ".json"
  match getDirPath st object with
  | .error e => (st, object, .error e)
  | .ok dirPath =>
    if !(fsExistsPath st.fs (dirPath ++ ["~" ++ infoFileName])) then
      (st, object, .ok none)
    else (st, object, .ok (some (dirPath, infoFileName)))

/-- Embedding of saveChanges: when a draft info file exists, renames it over
the canonical info file, then either promotes a draft body file over the
canonical body file or deletes a stale canonical body file; when no draft
info file exists, performs no file operation. Returns the request. -/
def saveChanges (st : St) (request : RufusObject) :
    St × RufusObject × Except PError RufusObject :=
  match undraft st request with
  | (st1, request1, .error e) => (st1, request1, .error e)
  | (st1, request1, .ok none) => (st1, request1, .ok request1)
  | (st1, request1, .ok (some (dirPath, infoFileName))) =>
    match fsRename st1.fs (dirPath ++ ["~" ++ infoFileName])
        (dirPath ++ [infoFileName]) with
    | none => (st1, request1, .error .ioError)
    | some fs1 =>
      if request1.isRequest then
        let draftBodyFilePath := dirPath ++ [DRAFT_TEXT_BODY_FILE_NAME]
        let bodyFilePath := dirPath ++ [TEXT_BODY_FILE_NAME]
        if fsExistsPath fs1 draftBodyFilePath then
          match fsRename fs1 draftBodyFilePath bodyFilePath with
          | some fs2 => ({ st1 with fs := fs2 }, request1, .ok request1)
          | none => ({ st1 with fs := fs1 }, request1, .error .ioError)
        else if fsExistsPath fs1 bodyFilePath then
          match fsUnlink fs1 bodyFilePath with
          | some fs2 => ({ st1 with fs := fs2 }, request1, .ok request1)
          | none => ({ st1 with fs := fs1 }, request1, .error .ioError)
        else ({ st1 with fs := fs1 }, request1, .ok request1)
      else ({ st1 with fs := fs1 }, request1, .ok request1)

mutual

/-- Embedding of updatePathMapRecursively: recovers the child's directory name
as the basename of its previously recorded path index entry (path.basename of
undefined throws a TypeError when the entry is missing), records the child's
new path, and recurses over a folder's children. -/
def updatePathMapRecursively (st : St) (child : RufusObject)
    (newParentDirPath : List String) : St × Except PError Unit :=
  match mapGet st.idToPathMap child.id with
  | none => (st, .error .typeError)
  | some oldDirPath =>
    let dirName := oldDirPath.getLastD ""
    let newDirPath := newParentDirPath ++ [dirName]
    let st1 := { st with idToPathMap := mapSet st.idToPathMap child.id newDirPath }
    match child with
    | .folder _ _ _ cs => updatePathMapList st1 cs newDirPath
    | _ => (st1, .ok ())

/-- Iteration of updatePathMapRecursively over a list of children, stopping at
the first error as a thrown exception does. -/
def updatePathMapList (st : St) (cs : List RufusObject)
    (newDirPath : List String) : St × Except PError Unit :=
  match cs with
  | [] => (st, .ok ())
  | c :: rest =>
    match updatePathMapRecursively st c newDirPath with
    | (st1, .ok _) => updatePathMapList st1 rest newDirPath
    | (st1, .error e) => (st1, .error e)

end

/-- Embedding of rename: resolves the object's current path, computes the new
directory name with getDirName before the title is updated (so from the old
title, as the source does), renames the directory, assigns the new title,
records the object's path index entry, and re-indexes the children of a
non-request object. -/
def rename (st : St) (object : RufusObject) (newTitle : String) :
    St × RufusObject × Except PError Unit :=
  match getDirPath st object with
  | .error e => (st, object, .error e)
  | .ok oldDirPath =>
    let parentDirPath := oldDirPath.dropLast
    let newDirName := getDirName object
    let newDirPath := parentDirPath ++ [newDirName]
    match fsRename st.fs oldDirPath newDirPath with
    | none => (st, object, .error .ioError)
    | some fs1 =>
      let object1 := object.setTitle newTitle
      let st1 := { st with
          fs := fs1,
          idToPathMap := mapSet st.idToPathMap object1.id newDirPath }
      if !object1.isRequest then
        match updatePathMapList st1 object1.children newDirPath with
        | (st2, r) => (st2, object1, r)
      else (st1, object1, .ok ())

/-- Embedding of moveChild: computes the child's directory name and current
path and the new parent's path, filters the child out of the old parent's
children, appends it to the new parent's children, renames the child's
directory under the new parent, and re-indexes the moved subtree. Returns the
mutated old and new parents. -/
def moveChild (st : St) (child oldParent newParent : RufusObject) :
    St × RufusObject × RufusObject × Except PError Unit :=
  let childDirName := getDirName child
  match getDirPath st child with
  | .error e => (st, oldParent, newParent, .error e)
  | .ok oldChildDirPath =>
    match getDirPath st newParent with
    | .error e => (st, oldParent, newParent, .error e)
    | .ok newParentDirPath =>
      let newChildDirPath := newParentDirPath ++ [childDirName]
      let oldParent1 := oldParent.setChildren
        (oldParent.children.filter (fun c => !(c.id == child.id)))
      let newParent1 := newParent.setChildren (newParent.children ++ [child])
      match fsRename st.fs oldChildDirPath newChildDirPath with
      | none => (st, oldParent1, newParent1, .error .ioError)
      | some fs1 =>
        match updatePathMapRecursively { st with fs := fs1 } child
            newParentDirPath with
        | (st2, r) => (st2, oldParent1, newParent1, r)

mutual

/-- Embedding of delete: resolves the object's path, recursively deletes the
children of a non-request object first, then removes the object's path index
entry and its directory subtree (the fs.rm call is recorded in the log). -/
def deleteOp (st : St) (object : RufusObject) : St × Except PError Unit :=
  match getDirPath st object with
  | .error e => (st, .error e)
  | .ok dirPath =>
    let childStep : St × Except PError Unit :=
      match object with
      | .request _ _ _ _ _ _ _ => (st, .ok ())
      | .collection _ _ _ _ cs => deleteList st cs
      | .folder _ _ _ cs => deleteList st cs
    match childStep with
    | (st1, .error e) => (st1, .error e)
    | (st1, .ok _) =>
      let st2 := { st1 with idToPathMap := mapDelete st1.idToPathMap object.id }
      match fsRm st2.fs dirPath with
      | some fs1 => ({ st2 with fs := fs1, rmLog := st2.rmLog ++ [dirPath] }, .ok ())
      | none => (st2, .error .ioError)

/-- Iteration of deleteOp over a list of children, stopping at the first error
as a thrown exception does. -/
def deleteList (st : St) (cs : List RufusObject) : St × Except PError Unit :=
  match cs with
  | [] => (st, .ok ())
  | c :: rest =>
    match deleteOp st c with
    | (st1, .ok _) => deleteList st1 rest
    | (st1, .error e) => (st1, .error e)

end

/-- Existence probe for a named file directly inside a directory node. -/
def nodeHas (node : FsNode) (name : String) : Bool :=
  match node with
  | .dir es => (entGet es name).isSome
  | .file _ => false

/-- Embedding of loadInfoFile, acting on the node of the object's directory:
prefers the tilde-prefixed draft info file when it exists, reads and parses
the chosen file, and reports whether the draft variant was used. -/
def loadInfoFile (node : FsNode) (typeName : String) :
    Except PError (InfoFile × Bool) :=
  let infoFileName := typeName ++ ".json"
  let draft := nodeHas node ("~" ++ infoFileName)
  let chosenName := if draft then "~" ++ infoFileName else infoFileName
  match node with
  | .dir es =>
    match entGet es chosenName with
    | some (.file (.json info)) => .ok (info, draft)
    | some (.file (.blob _)) => .error .jsonError
    | some (.dir _) => .error .ioError
    | none => .error .ioError
  | .file _ => .error .ioError

/-- Embedding of loadRequest, acting on the node of the request's directory:
reads the info file (draft variant preferred), strips the version field,
assigns a fresh identifier, records the path index entry, and assembles the
request with the contextual fields; the draft flag is the probe result. -/
def loadRequestOp (st : St) (node : FsNode) (parentId : Option String)
    (dirPath : List String) : St × Except PError RufusObject :=
  match loadInfoFile node "request" with
  | .error e => (st, .error e)
  | .ok (info, draft) =>
    let info := { info with version := none }
    let id := uuidStr st.nextId
    let st1 := { st with
        nextId := st.nextId + 1,
        idToPathMap := mapSet st.idToPathMap (some id) dirPath }
    (st1, .ok (.request (some id) parentId info.title info.method info.headers
      info.body draft))

mutual

/-- Embedding of load together with the inlined body of loadFolder (inlined
so that the recursion is structural over the directory node): the type is
determined by the optional caller-supplied tag or by probing for
folder.json/~folder.json versus request.json/~request.json; a directory with
neither is an error. The folder branch reads the info file, strips the
version field, assigns a fresh identifier, records the path index entry, and
loads the children before assembling the folder. -/
def loadOp (st : St) (node : FsNode) (parentId : Option String)
    (dirPath : List String) (ty : Option String) : St × Except PError RufusObject :=
  if ty == some "folder" || nodeHas node "folder.json" ||
      nodeHas node "~folder.json" then
    match loadInfoFile node "folder" with
    | .error e => (st, .error e)
    | .ok (info, _) =>
      let info := { info with version := none }
      let id := uuidStr st.nextId
      let st1 := { st with
          nextId := st.nextId + 1,
          idToPathMap := mapSet st.idToPathMap (some id) dirPath }
      match node with
      | .dir es =>
        match loadChildrenList st1 es (some id) dirPath with
        | (st2, .error e) => (st2, .error e)
        | (st2, .ok children) =>
          (st2, .ok (.folder (some id) parentId info.title children))
      | .file _ => (st1, .error .ioError)
  else if ty == some "request" || nodeHas node "request.json" ||
      nodeHas node "~request.json" then
    loadRequestOp st node parentId dirPath
  else (st, .error (.cannotDetermineType dirPath))

/-- Embedding of loadChildren, iterating over the entries of the parent's
directory in order: entries that are not directories are skipped, every
subdirectory is loaded with loadOp (no type tag), and the first error stops
the iteration as a thrown exception does. -/
def loadChildrenList (st : St) (entries : List (String × FsNode))
    (parentId : Option String) (parentDirPath : List String) :
    St × Except PError (List RufusObject) :=
  match entries with
  | [] => (st, .ok [])
  | (name, n) :: rest =>
    match n with
    | .file _ => loadChildrenList st rest parentId parentDirPath
    | .dir _ =>
      match loadOp st n parentId (parentDirPath ++ [name]) none with
      | (st1, .error e) => (st1, .error e)
      | (st1, .ok child) =>
        match loadChildrenList st1 rest parentId parentDirPath with
        | (st2, .error e) => (st2, .error e)
        | (st2, .ok cs) => (st2, .ok (child :: cs))

end

/-- Embedding of loadCollection: resolves the collection's directory, reads
its info file (draft variant preferred), strips the version field, assigns a
fresh identifier, records the path index entry, loads the children from the
immediate subdirectories, and assembles the collection. -/
def loadCollection (st : St) (dirPath : List String) :
    St × Except PError RufusObject :=
  match st.fs.lookup dirPath with
  | none => (st, .error .ioError)
  | some node =>
    match loadInfoFile node "collection" with
    | .error e => (st, .error e)
    | .ok (info, _) =>
      let info := { info with version := none }
      let id := uuidStr st.nextId
      let st1 := { st with
          nextId := st.nextId + 1,
          idToPathMap := mapSet st.idToPathMap (some id) dirPath }
      match node with
      | .dir es =>
        match loadChildrenList st1 es (some id) dirPath with
        | (st2, .error e) => (st2, .error e)
        | (st2, .ok children) =>
          (st2, .ok (.collection (some id) info.title info.vars dirPath children))
      | .file _ => (st1, .error .ioError)


section AssocLemmas

variable {K V : Type} [BEq K]

theorem assocGet_cons (e : K × V) (m : List (K × V)) (k : K) :
    assocGet (e :: m) k = if e.1 == k then some e.2 else assocGet m k := by
  by_cases h : (e.1 == k) = true
  · simp [assocGet, List.find?, h]
  · simp only [Bool.not_eq_true] at h
    simp [assocGet, List.find?, h]

theorem anyKey_cons (e : K × V) (m : List (K × V)) (k : K) :
    (e :: m).any (fun x => x.1 == k) =
      ((e.1 == k) || m.any (fun x => x.1 == k)) := by
  simp [List.any_cons]

theorem assocGet_assocSet_self [LawfulBEq K] (m : List (K × V)) (k : K) (v : V) :
    assocGet (assocSet m k v) k = some v := by
  unfold assocSet
  by_cases hAny : m.any (fun e => e.1 == k) = true
  · rw [if_pos hAny]
    induction m with
    | nil => simp at hAny
    | cons e rest ih =>
      by_cases he : (e.1 == k) = true
      · simp only [List.map_cons, if_pos he]
        rw [assocGet_cons]
        simp
      · have hAny' : rest.any (fun e => e.1 == k) = true := by
          rw [anyKey_cons, Bool.or_eq_true] at hAny
          rcases hAny with h | h
          · exact absurd h he
          · exact h
        simp only [List.map_cons, if_neg he]
        rw [assocGet_cons, if_neg he]
        exact ih hAny'
  · rw [if_neg hAny]
    induction m with
    | nil => simp [assocGet, List.find?]
    | cons e rest ih =>
      have he : ¬ (e.1 == k) = true := by
        intro hh
        exact hAny (by rw [anyKey_cons, Bool.or_eq_true]; exact Or.inl hh)
      have hAny' : ¬ rest.any (fun e => e.1 == k) = true := by
        intro hh
        exact hAny (by rw [anyKey_cons, Bool.or_eq_true]; exact Or.inr hh)
      simp only [List.cons_append]
      rw [assocGet_cons, if_neg he]
      exact ih hAny'

theorem assocGet_assocSet_ne [LawfulBEq K] (m : List (K × V)) (k k' : K) (v : V)
    (h : ¬ k' = k) : assocGet (assocSet m k v) k' = assocGet m k' := by
  unfold assocSet
  by_cases hAny : m.any (fun e => e.1 == k) = true
  · rw [if_pos hAny]
    clear hAny
    induction m with
    | nil => rfl
    | cons e rest ih =>
      by_cases he : (e.1 == k) = true
      · have hek : e.1 = k := by simpa using he
        simp only [List.map_cons, if_pos he]
        rw [assocGet_cons, assocGet_cons]
        have h1 : ¬ (k == k') = true := by
          simp only [beq_iff_eq]
          intro hh
          exact h hh.symm
        have h2 : ¬ (e.1 == k') = true := by
          simp only [beq_iff_eq, hek]
          intro hh
          exact h hh.symm
        rw [if_neg h1, if_neg h2, ih]
      · simp only [List.map_cons, if_neg he]
        rw [assocGet_cons, assocGet_cons, ih]
  · rw [if_neg hAny]
    clear hAny
    induction m with
    | nil =>
      simp only [List.nil_append]
      rw [assocGet_cons]
      have h1 : ¬ (k == k') = true := by
        simp only [beq_iff_eq]
        intro hh
        exact h hh.symm
      rw [if_neg h1]
    | cons e rest ih =>
      simp only [List.cons_append]
      rw [assocGet_cons, assocGet_cons, ih]

theorem assocGet_assocDel_self [LawfulBEq K] (m : List (K × V)) (k : K) :
    assocGet (assocDel m k) k = none := by
  unfold assocDel
  induction m with
  | nil => rfl
  | cons e rest ih =>
    by_cases he : (e.1 == k) = true
    · rw [List.filter_cons_of_neg (by simp [he])]
      exact ih
    · rw [List.filter_cons_of_pos (by simp [he])]
      rw [assocGet_cons, if_neg he]
      exact ih

theorem assocGet_assocDel_ne [LawfulBEq K] (m : List (K × V)) (k k' : K) (h : ¬ k' = k) :
    assocGet (assocDel m k) k' = assocGet m k' := by
  unfold assocDel
  induction m with
  | nil => rfl
  | cons e rest ih =>
    by_cases he : (e.1 == k) = true
    · have hek : e.1 = k := by simpa using he
      rw [List.filter_cons_of_neg (by simp [he])]
      rw [ih, assocGet_cons]
      have h2 : ¬ (e.1 == k') = true := by
        simp only [beq_iff_eq, hek]
        intro hh
        exact h hh.symm
      rw [if_neg h2]
    · rw [List.filter_cons_of_pos (by simp [he])]
      rw [assocGet_cons, assocGet_cons, ih]

theorem assocAny_eq_isSome [LawfulBEq K] (m : List (K × V)) (k : K) :
    m.any (fun e => e.1 == k) = (assocGet m k).isSome := by
  induction m with
  | nil => rfl
  | cons e rest ih =>
    rw [assocGet_cons, anyKey_cons]
    by_cases he : (e.1 == k) = true
    · simp [he]
    · simp only [Bool.not_eq_true] at he
      simp [he, ih]

end AssocLemmas

theorem lookup_append (p q : List String) : ∀ (fs : FsNode),
    fs.lookup (p ++ q) = (fs.lookup p).bind (fun n => n.lookup q) := by
  induction p with
  | nil =>
    intro fs
    simp [FsNode.lookup]
  | cons x rest ih =>
    intro fs
    cases fs with
    | file c => simp [FsNode.lookup]
    | dir es =>
      simp only [List.cons_append]
      show (match entGet es x with
        | some child => child.lookup (rest ++ q)
        | none => none) = _
      cases h : entGet es x with
      | some child =>
        simp only
        rw [ih child]
        show _ = (match entGet es x with
          | some child => child.lookup rest
          | none => none).bind _
        rw [h]
      | none =>
        simp only
        show none = (match entGet es x with
          | some child => child.lookup rest
          | none => none).bind _
        rw [h]
        rfl

theorem lookup_nil (n : FsNode) : n.lookup [] = some n := by
  cases n <;> rfl

theorem lookup_dir_single (es : List (String × FsNode)) (x : String) :
    (FsNode.dir es).lookup [x] = entGet es x := by
  show (match entGet es x with
    | some child => child.lookup []
    | none => none) = entGet es x
  cases h : entGet es x with
  | none => rfl
  | some child => simp [lookup_nil]

theorem setAt_dir_single (es : List (String × FsNode)) (x : String) (v : FsNode) :
    (FsNode.dir es).setAt [x] v = some (.dir (entSet es x v)) := rfl

theorem removeAt_dir_single (es : List (String × FsNode)) (x : String)
    (h : (entGet es x).isSome) :
    (FsNode.dir es).removeAt [x] = some (.dir (entDel es x)) := by
  have hAny : (es.any fun e => e.1 == x) = true := by
    rw [assocAny_eq_isSome]
    exact h
  simp [FsNode.removeAt, hAny, entDel]

theorem setAt_lift : ∀ (d : List String) (fs nd nd' : FsNode) (q : List String)
    (v : FsNode), fs.lookup d = some nd → nd.setAt q v = some nd' → q ≠ [] →
    ∃ fs', fs.setAt (d ++ q) v = some fs' ∧ fs'.lookup d = some nd' := by
  intro d
  induction d with
  | nil =>
    intro fs nd nd' q v hl hs _
    refine ⟨nd', ?_, ?_⟩
    · simp only [List.nil_append]
      have : fs = nd := by
        have := hl
        rw [lookup_nil] at this
        exact Option.some.inj this
      rw [this]
      exact hs
    · exact lookup_nil nd'
  | cons x rest ih =>
    intro fs nd nd' q v hl hs hq
    cases fs with
    | file c => simp [FsNode.lookup] at hl
    | dir es =>
      have hl' : (match entGet es x with
          | some child => child.lookup rest
          | none => none) = some nd := hl
      cases hg : entGet es x with
      | none => rw [hg] at hl'; exact absurd hl' (by simp)
      | some child =>
        rw [hg] at hl'
        simp only at hl'
        obtain ⟨c', hc1, hc2⟩ := ih child nd nd' q v hl' hs hq
        refine ⟨.dir (entSet es x c'), ?_, ?_⟩
        · simp only [List.cons_append]
          cases hrq : rest ++ q with
          | nil =>
            rcases List.append_eq_nil.mp hrq with ⟨_, h2⟩
            exact absurd h2 hq
          | cons y ys =>
            show (match entGet es x with
              | some child => (child.setAt (y :: ys) v).map
                  (fun c => FsNode.dir (entSet es x c))
              | none => none) = _
            rw [hg]
            simp only
            rw [← hrq, hc1]
            rfl
        · show (match entGet (entSet es x c') x with
            | some child => child.lookup rest
            | none => none) = some nd'
          rw [show entGet (entSet es x c') x = some c' from
            assocGet_assocSet_self es x c']
          exact hc2

theorem removeAt_lift : ∀ (d : List String) (fs nd nd' : FsNode)
    (q : List String), fs.lookup d = some nd → nd.removeAt q = some nd' →
    ∃ fs', fs.removeAt (d ++ q) = some fs' ∧ fs'.lookup d = some nd' := by
  intro d
  induction d with
  | nil =>
    intro fs nd nd' q hl hs
    refine ⟨nd', ?_, ?_⟩
    · simp only [List.nil_append]
      have : fs = nd := by
        have := hl
        rw [lookup_nil] at this
        exact Option.some.inj this
      rw [this]
      exact hs
    · exact lookup_nil nd'
  | cons x rest ih =>
    intro fs nd nd' q hl hs
    cases fs with
    | file c => simp [FsNode.lookup] at hl
    | dir es =>
      have hl' : (match entGet es x with
          | some child => child.lookup rest
          | none => none) = some nd := hl
      cases hg : entGet es x with
      | none => rw [hg] at hl'; exact absurd hl' (by simp)
      | some child =>
        rw [hg] at hl'
        simp only at hl'
        obtain ⟨c', hc1, hc2⟩ := ih child nd nd' q hl' hs
        have hq : q ≠ [] := by
          intro hqe
          rw [hqe] at hs
          exact absurd hs (by simp [FsNode.removeAt])
        refine ⟨.dir (entSet es x c'), ?_, ?_⟩
        · simp only [List.cons_append]
          cases hrq : rest ++ q with
          | nil =>
            rcases List.append_eq_nil.mp hrq with ⟨_, h2⟩
            exact absurd h2 hq
          | cons y ys =>
            show (match entGet es x with
              | some child => (child.removeAt (y :: ys)).map
                  (fun c => FsNode.dir (entSet es x c))
              | none => none) = _
            rw [hg]
            simp only
            rw [← hrq, hc1]
            rfl
        · show (match entGet (entSet es x c') x with
            | some child => child.lookup rest
            | none => none) = some nd'
          rw [show entGet (entSet es x c') x = some c' from
            assocGet_assocSet_self es x c']
          exact hc2

theorem removeAt_lookup_none : ∀ (p : List String) (fs fs' : FsNode),
    fs.removeAt p = some fs' → fs'.lookup p = none := by
  intro p
  induction p with
  | nil =>
    intro fs fs' h
    exact absurd h (by simp [FsNode.removeAt])
  | cons x rest ih =>
    intro fs fs' h
    cases fs with
    | file c => exact absurd h (by simp [FsNode.removeAt])
    | dir es =>
      cases rest with
      | nil =>
        by_cases hAny : (es.any fun e => e.1 == x) = true
        · have : fs' = .dir (entDel es x) := by
            have h2 : some (FsNode.dir (entDel es x)) = some fs' := by
              simpa [FsNode.removeAt, hAny] using h
            exact (Option.some.inj h2).symm
          rw [this, lookup_dir_single]
          exact assocGet_assocDel_self es x
        · exact absurd h (by simp [FsNode.removeAt, hAny])
      | cons y ys =>
        have h' : (match entGet es x with
            | some child => (child.removeAt (y :: ys)).map
                (fun c => FsNode.dir (entSet es x c))
            | none => none) = some fs' := h
        cases hg : entGet es x with
        | none => rw [hg] at h'; exact absurd h' (by simp)
        | some child =>
          rw [hg] at h'
          simp only [Option.map_eq_some'] at h'
          obtain ⟨c', hc1, hc2⟩ := h'
          rw [← hc2]
          show (match entGet (entSet es x c') x with
            | some child => child.lookup (y :: ys)
            | none => none) = none
          rw [show entGet (entSet es x c') x = some c' from
            assocGet_assocSet_self es x c']
          exact ih child c' hc1

theorem mapGet_mapSet_self (m : List (Option String × List String))
    (k : Option String) (v : List String) : mapGet (mapSet m k v) k = some v :=
  assocGet_assocSet_self m k v

theorem mapGet_mapSet_ne (m : List (Option String × List String))
    (k k' : Option String) (v : List String) (h : ¬ k' = k) :
    mapGet (mapSet m k v) k' = mapGet m k' :=
  assocGet_assocSet_ne m k k' v h

theorem mapGet_mapDelete_self (m : List (Option String × List String))
    (k : Option String) : mapGet (mapDelete m k) k = none :=
  assocGet_assocDel_self m k

theorem mapGet_mapDelete_ne (m : List (Option String × List String))
    (k k' : Option String) (h : ¬ k' = k) :
    mapGet (mapDelete m k) k' = mapGet m k' :=
  assocGet_assocDel_ne m k k' h

theorem allowedChar_toLower_id (c : Char) (h : allowedChar c = true) :
    jsToLowerChar c = c := by
  unfold jsToLowerChar
  rw [if_neg]
  intro hAZ
  obtain ⟨h1, h2⟩ := hAZ
  unfold allowedChar at h
  simp only [Bool.or_eq_true, Bool.and_eq_true, decide_eq_true_eq,
    beq_iff_eq] at h
  rcases h with (⟨ha, _⟩ | ⟨_, hb⟩) | hc
  · have : ('a' : Char) ≤ 'Z' := le_trans ha h2
    exact absurd this (by decide)
  · have : ('A' : Char) ≤ '9' := le_trans h1 hb
    exact absurd this (by decide)
  · rw [hc] at h1
    exact absurd h1 (by decide)

theorem allowedChar_not_ws (c : Char) (h : allowedChar c = true) :
    jsWhitespace c = false := by
  by_contra hw
  simp only [Bool.not_eq_false] at hw
  unfold jsWhitespace at hw
  simp only [Bool.or_eq_true, beq_iff_eq] at hw
  rcases hw with ((((h1 | h1) | h1) | h1) | h1) | h1 <;>
    (rw [h1] at h; exact absurd h (by decide))

/-- C5: for every title string the sanitizer is idempotent and its result
contains only characters in the class [a-z0-9-]; the sanitizer is a pure
function (lower-case, replace whitespace with hyphens, strip everything
outside the class), hence deterministic. -/
theorem c5_sanitize_idempotent_charset (t : String) :
    sanitizeTitle (sanitizeTitle t) = sanitizeTitle t ∧
    (sanitizeTitle t).data.all allowedChar = true := by
  unfold sanitizeTitle
  set l := ((t.data.map jsToLowerChar).map
    (fun c => if jsWhitespace c then '-' else c)).filter allowedChar with hldef
  have hall : ∀ c ∈ l, allowedChar c = true := by
    intro c hc
    exact List.of_mem_filter hc
  constructor
  · have hdata : (String.mk l).data = l := rfl
    rw [hdata]
    have h1 : l.map jsToLowerChar = l := by
      have := List.map_congr_left (l := l) (f := jsToLowerChar) (g := id)
        (fun a ha => allowedChar_toLower_id a (hall a ha))
      rw [this, List.map_id]
    have h2 : l.map (fun c => if jsWhitespace c then '-' else c) = l := by
      have := List.map_congr_left (l := l)
        (f := fun c => if jsWhitespace c then '-' else c) (g := id)
        (fun a ha => by
          simp only [id]
          rw [if_neg]
          rw [allowedChar_not_ws a (hall a ha)]
          simp)
      rw [this, List.map_id]
    have h3 : l.filter allowedChar = l := List.filter_eq_self.mpr hall
    rw [h1, h2, h3]
  · exact List.all_eq_true.mpr hall

/-- Info file content used by the concrete rename scenario. -/
def c1Info : InfoFile :=
  { title := "Old Name", vars := none, method := some "GET", headers := none,
    body := none, version := none }

/-- Request titled Old Name, identifier recorded in the path index. -/
def c1Request : RufusObject :=
  .request (some "r1") (some "c0") "Old Name" (some "GET") none none false

/-- State for the concrete rename scenario: the request's directory old-name
lives under the collection directory c and is recorded in the path index. -/
def c1St : St :=
  { fs := .dir [("c", .dir [("old-name", .dir [("request.json",
      .file (.json c1Info))])])],
    idToPathMap := [(some "r1", ["c", "old-name"])], nextId := 0, rmLog := [] }

/-- C1: renaming the object titled Old Name to New! Name succeeds and updates
the title, but the directory does not become new-name: it stays old-name, and
the path index entry stays at the old path, because the source computes the
new directory name with getDirName before assigning the new title, hence from
the old title. The sanitizer itself does map New! Name to new-name. -/
theorem c1_rename_keeps_old_directory_name :
    (rename c1St c1Request "New! Name").2.2 = .ok () ∧
    (rename c1St c1Request "New! Name").2.1.title = "New! Name" ∧
    (rename c1St c1Request "New! Name").1.fs.lookup ["c", "new-name"] = none ∧
    (rename c1St c1Request "New! Name").1.fs.lookup ["c", "old-name"] ≠ none ∧
    mapGet (rename c1St c1Request "New! Name").1.idToPathMap (some "r1") =
      some ["c", "old-name"] ∧
    sanitizeTitle "New! Name" = "new-name" := by decide

/-- Info file content used by the concrete loading scenario. -/
def c2Info : InfoFile :=
  { title := "My Collection", vars := some [], method := none, headers := none,
    body := none, version := none }

/-- State for the concrete loading scenario: the collection directory c holds
its collection.json and one subdirectory junk that contains neither a folder
nor a request info file, only a stray text file. -/
def c2St : St :=
  { fs := .dir [("c", .dir [("collection.json", .file (.json c2Info)),
      ("junk", .dir [("note.txt", .file (.blob "x"))])])],
    idToPathMap := [], nextId := 0, rmLog := [] }

/-- C2 counterexample: loading the collection whose directory contains a
subdirectory with neither folder.json/~folder.json nor
request.json/~request.json fails with the unclassifiable-directory error
instead of skipping that subdirectory, already during a plain loadCollection
(no reload involved). -/
theorem c2_unclassifiable_subdirectory_is_error :
    (loadCollection c2St ["c"]).2 =
      .error (.cannotDetermineType ["c", "junk"]) := by decide

/-- C2 as amended: during child loading only entries that are not directories
are skipped; every subdirectory is loaded, and one containing neither
folder.json/~folder.json nor request.json/~request.json makes load fail with
the unclassifiable-directory error (no type tag is passed during normal child
loading, so this happens outside reload as well). -/
theorem c2_skip_only_files_error_on_unclassifiable_dir :
    (∀ (st : St) (node : FsNode) (parentId : Option String)
      (dirPath : List String),
      nodeHas node "folder.json" = false → nodeHas node "~folder.json" = false →
      nodeHas node "request.json" = false →
      nodeHas node "~request.json" = false →
      loadOp st node parentId dirPath none =
        (st, .error (.cannotDetermineType dirPath))) ∧
    (∀ (st : St) (entries : List (String × FsNode)) (parentId : Option String)
      (parentDirPath : List String),
      (∀ e ∈ entries, ∃ c, e.2 = FsNode.file c) →
      loadChildrenList st entries parentId parentDirPath = (st, .ok [])) := by
  constructor
  · intro st node parentId dirPath h1 h2 h3 h4
    rw [loadOp]
    rw [if_neg (by simp [h1, h2]), if_neg (by simp [h3, h4])]
  · intro st entries parentId parentDirPath hall
    induction entries with
    | nil => rw [loadChildrenList]
    | cons e rest ih =>
      obtain ⟨c, hc⟩ := hall e (List.mem_cons_self e rest)
      obtain ⟨name, n⟩ := e
      simp only at hc
      rw [hc]
      rw [loadChildrenList]
      exact ih (fun e he => hall e (List.mem_cons_of_mem _ he))

theorem saveInfoFile_ok (st : St) (o : RufusObject) (d : List String)
    (fn : String) (es : List (String × FsNode)) (oid : String)
    (hId : o.id = some oid)
    (hOK : o.isCollection = true ∨ o.parentId.isSome = true)
    (hDir : st.fs.lookup d = some (.dir es)) :
    ∃ fs2, saveInfoFile st o d fn =
      ({ st with
          fs := fs2,
          idToPathMap := mapSet st.idToPathMap (some oid) d }, o, .ok ()) ∧
      fs2.lookup d =
        some (.dir (entSet es fn (.file (.json (toInfoFile o))))) := by
  obtain ⟨fs2, hset, hlook⟩ := setAt_lift d st.fs (.dir es)
    (.dir (entSet es fn (.file (.json (toInfoFile o))))) [fn]
    (.file (.json (toInfoFile o))) hDir (setAt_dir_single es fn _) (by simp)
  refine ⟨fs2, ?_, hlook⟩
  have hEx : fsExistsPath st.fs d = true := by
    unfold fsExistsPath
    rw [hDir]
    rfl
  have hCond : (!o.isCollection && o.parentId.isNone) = false := by
    rcases hOK with h | h
    · rw [h]
      rfl
    · obtain ⟨pv, hpv⟩ := Option.isSome_iff_exists.mp h
      rw [hpv]
      simp
  unfold saveInfoFile
  rw [hId]
  simp only [Option.isNone_some, Bool.false_eq_true, if_false, hCond,
    Bool.false_eq_true, if_false, hEx, if_true]
  unfold fsWriteFile
  rw [hset, hId]

/-- Info file content used by the concrete draft-body scenario. -/
def c3Info : InfoFile :=
  { title := "R", vars := none, method := some "GET", headers := none,
    body := some { bodyType := .text, text := none }, version := none }

/-- Draft request whose canonical body file exists on disk. -/
def c3Request : RufusObject :=
  .request (some "r1") (some "c0") "R" (some "GET") none
    (some { bodyType := .text, text := none }) true

/-- State for the concrete draft-body scenario: the request directory holds
the canonical info file and the canonical body file body.txt. -/
def c3St : St :=
  { fs := .dir [("c", .dir [("r", .dir [("request.json", .file (.json c3Info)),
      ("body.txt", .file (.blob "old body"))])])],
    idToPathMap := [(some "r1", ["c", "r"])], nextId := 0, rmLog := [] }

/-- C3 counterexample: for a request in draft state, saveRequest without a
text payload deletes the canonical body file body.txt instead of leaving it
unchanged; the source's deletion branch does not consult the draft flag. -/
theorem c3_draft_save_deletes_canonical_body :
    c3Request.draft = true ∧
    (saveRequest c3St c3Request none).2.2 = .ok () ∧
    (saveRequest c3St c3Request none).1.fs.lookup ["c", "r", "body.txt"] =
      none := by decide

/-- C3 as amended: saveRequest deletes the canonical body file whenever no
text payload is supplied and that file exists, regardless of the draft flag
(the flag f below is arbitrary): after the call the canonical body file is
gone. -/
theorem c3_save_without_payload_unlinks_body (st : St) (rid pid t : String)
    (m : Option String) (hh : Option (List (String × String)))
    (b : Option RequestBody) (f : Bool) (d : List String)
    (es : List (String × FsNode)) (bc : FileContent)
    (hMap : mapGet st.idToPathMap (some rid) = some d)
    (hDir : st.fs.lookup d = some (.dir es))
    (hBody : entGet es TEXT_BODY_FILE_NAME = some (.file bc)) :
    (saveRequest st (.request (some rid) (some pid) t m hh b f) none).2.2 =
      .ok () ∧
    (saveRequest st (.request (some rid) (some pid) t m hh b f)
      none).1.fs.lookup (d ++ [TEXT_BODY_FILE_NAME]) = none := by
  have hgd : getDirPath st (.request (some rid) (some pid) t m hh b f) =
      .ok d := by
    unfold getDirPath
    simp [RufusObject.isCollection, RufusObject.id, hMap]
  obtain ⟨fs2, hsif, hlook2⟩ := saveInfoFile_ok st
    (.request (some rid) (some pid) t m hh b f) d
    ((if f then "~" else "") ++ "request" ++ ".json") es rid rfl
    (Or.inr rfl) hDir
  have hne : ¬ TEXT_BODY_FILE_NAME =
      ((if f then "~" else "") ++ "request" ++ ".json" : String) := by
    cases f <;> decide
  have hBody2 : entGet (entSet es ((if f then "~" else "") ++ "request" ++
      ".json") (.file (.json (toInfoFile (.request (some rid) (some pid) t m
      hh b f))))) TEXT_BODY_FILE_NAME = some (.file bc) := by
    unfold entGet entSet at *
    rw [assocGet_assocSet_ne _ _ _ _ hne]
    exact hBody
  have hlb2 : fs2.lookup (d ++ [TEXT_BODY_FILE_NAME]) = some (.file bc) := by
    rw [lookup_append, hlook2]
    simp only [Option.some_bind]
    rw [lookup_dir_single]
    exact hBody2
  obtain ⟨fs3, hrm1, hrm2⟩ := removeAt_lift d fs2 _ _ [TEXT_BODY_FILE_NAME]
    hlook2 (removeAt_dir_single _ TEXT_BODY_FILE_NAME (by rw [hBody2]; rfl))
  have hunl : fsUnlink fs2 (d ++ [TEXT_BODY_FILE_NAME]) = some fs3 := by
    unfold fsUnlink
    rw [hlb2, hrm1]
  have hex2 : fsExistsPath fs2 (d ++ [TEXT_BODY_FILE_NAME]) = true := by
    unfold fsExistsPath
    rw [hlb2]
    rfl
  unfold saveRequest
  rw [hgd]
  simp only [RufusObject.draft, RufusObject.typeName]
  rw [hsif]
  simp only [hex2, if_true]
  rw [hunl]
  refine ⟨rfl, ?_⟩
  simp only
  rw [lookup_append, hrm2]
  simp only [Option.some_bind]
  rw [lookup_dir_single]
  unfold entGet entDel
  exact assocGet_assocDel_self _ _

/-- Witness for the amended C2 theorem at a concrete unclassifiable directory
and a concrete file-only entry list. -/
theorem c2_skip_only_files_error_on_unclassifiable_dir_witness :
    loadOp c2St (FsNode.dir [("note.txt", .file (.blob "x"))]) (some "cid")
      ["c", "junk"] none =
      (c2St, .error (.cannotDetermineType ["c", "junk"])) ∧
    loadChildrenList c2St [("a.txt", FsNode.file (.blob "y"))] (some "cid")
      ["c"] = (c2St, .ok []) :=
  ⟨c2_skip_only_files_error_on_unclassifiable_dir.1 c2St
      (FsNode.dir [("note.txt", .file (.blob "x"))]) (some "cid") ["c", "junk"]
      (by decide) (by decide) (by decide) (by decide),
    c2_skip_only_files_error_on_unclassifiable_dir.2 c2St
      [("a.txt", FsNode.file (.blob "y"))] (some "cid") ["c"]
      (fun e he => by
        rw [List.mem_singleton] at he
        exact ⟨.blob "y", by rw [he]⟩)⟩

/-- Witness for the amended C3 theorem at the concrete draft request of the
counterexample state. -/
theorem c3_save_without_payload_unlinks_body_witness :
    (saveRequest c3St (.request (some "r1") (some "c0") "R" (some "GET") none
      (some { bodyType := .text, text := none }) true) none).2.2 = .ok () ∧
    (saveRequest c3St (.request (some "r1") (some "c0") "R" (some "GET") none
      (some { bodyType := .text, text := none }) true)
      none).1.fs.lookup (["c", "r"] ++ [TEXT_BODY_FILE_NAME]) = none :=
  c3_save_without_payload_unlinks_body c3St "r1" "c0" "R" (some "GET") none
    (some { bodyType := .text, text := none }) true ["c", "r"]
    [("request.json", .file (.json c3Info)),
      ("body.txt", .file (.blob "old body"))]
    (.blob "old body") (by decide) (by decide) (by decide)

theorem saveRequest_noPayload_noBodyFile (st : St) (rid pid t : String)
    (m : Option String) (hh : Option (List (String × String)))
    (b : Option RequestBody) (f : Bool) (d : List String)
    (es : List (String × FsNode))
    (hMap : mapGet st.idToPathMap (some rid) = some d)
    (hDir : st.fs.lookup d = some (.dir es))
    (hNoB : entGet es TEXT_BODY_FILE_NAME = none) :
    ∃ fs2, saveRequest st (.request (some rid) (some pid) t m hh b f) none =
      ({ st with
          fs := fs2,
          idToPathMap := mapSet st.idToPathMap (some rid) d },
        .request (some rid) (some pid) t m hh b f, .ok ()) ∧
      fs2.lookup d = some (.dir (entSet es
        ((if f then "~" else "") ++ "request" ++ ".json")
        (.file (.json (toInfoFile
          (.request (some rid) (some pid) t m hh b f)))))) := by
  have hgd : getDirPath st (.request (some rid) (some pid) t m hh b f) =
      .ok d := by
    unfold getDirPath
    simp [RufusObject.isCollection, RufusObject.id, hMap]
  obtain ⟨fs2, hsif, hlook2⟩ := saveInfoFile_ok st
    (.request (some rid) (some pid) t m hh b f) d
    ((if f then "~" else "") ++ "request" ++ ".json") es rid rfl
    (Or.inr rfl) hDir
  have hne : ¬ TEXT_BODY_FILE_NAME =
      ((if f then "~" else "") ++ "request" ++ ".json" : String) := by
    cases f <;> decide
  have hBody2 : entGet (entSet es ((if f then "~" else "") ++ "request" ++
      ".json") (.file (.json (toInfoFile (.request (some rid) (some pid) t m
      hh b f))))) TEXT_BODY_FILE_NAME = none := by
    unfold entGet entSet at *
    rw [assocGet_assocSet_ne _ _ _ _ hne]
    exact hNoB
  have hlb2 : fs2.lookup (d ++ [TEXT_BODY_FILE_NAME]) = none := by
    rw [lookup_append, hlook2]
    simp only [Option.some_bind]
    rw [lookup_dir_single]
    exact hBody2
  have hex2 : fsExistsPath fs2 (d ++ [TEXT_BODY_FILE_NAME]) = false := by
    unfold fsExistsPath
    rw [hlb2]
    rfl
  refine ⟨fs2, ?_, hlook2⟩
  unfold saveRequest
  rw [hgd]
  simp only [RufusObject.draft, RufusObject.typeName]
  rw [hsif]
  simp only [hex2, Bool.false_eq_true, if_false]

theorem fsExists_within_dir (fs : FsNode) (d : List String)
    (es : List (String × FsNode)) (a : String)
    (hDir : fs.lookup d = some (.dir es)) :
    fsExistsPath fs (d ++ [a]) = (entGet es a).isSome := by
  unfold fsExistsPath
  rw [lookup_append, hDir]
  simp only [Option.some_bind]
  rw [lookup_dir_single]

theorem fsRename_within_dir (fs : FsNode) (d : List String)
    (es : List (String × FsNode)) (a b : String) (n : FsNode)
    (hDir : fs.lookup d = some (.dir es)) (hA : entGet es a = some n) :
    ∃ fs', fsRename fs (d ++ [a]) (d ++ [b]) = some fs' ∧
      fs'.lookup d = some (.dir (entSet (entDel es a) b n)) := by
  have hlookA : fs.lookup (d ++ [a]) = some n := by
    rw [lookup_append, hDir]
    simp only [Option.some_bind]
    rw [lookup_dir_single]
    exact hA
  obtain ⟨fs3, hrm, hrmLook⟩ := removeAt_lift d fs (.dir es)
    (.dir (entDel es a)) [a] hDir
    (removeAt_dir_single es a (by rw [hA]; rfl))
  obtain ⟨fs4, hset, hsetLook⟩ := setAt_lift d fs3 (.dir (entDel es a))
    (.dir (entSet (entDel es a) b n)) [b] n hrmLook
    (setAt_dir_single _ b n) (by simp)
  refine ⟨fs4, ?_, hsetLook⟩
  unfold fsRename
  rw [hlookA, hrm]
  exact hset

theorem fsUnlink_within_dir (fs : FsNode) (d : List String)
    (es : List (String × FsNode)) (a : String) (c : FileContent)
    (hDir : fs.lookup d = some (.dir es))
    (hA : entGet es a = some (.file c)) :
    ∃ fs', fsUnlink fs (d ++ [a]) = some fs' ∧
      fs'.lookup d = some (.dir (entDel es a)) := by
  have hlookA : fs.lookup (d ++ [a]) = some (.file c) := by
    rw [lookup_append, hDir]
    simp only [Option.some_bind]
    rw [lookup_dir_single]
    exact hA
  obtain ⟨fs3, hrm, hrmLook⟩ := removeAt_lift d fs (.dir es)
    (.dir (entDel es a)) [a] hDir
    (removeAt_dir_single es a (by rw [hA]; rfl))
  refine ⟨fs3, ?_, hrmLook⟩
  unfold fsUnlink
  rw [hlookA, hrm]

theorem undraft_noDraftFile (st : St) (rid pid t : String) (m : Option String)
    (hh : Option (List (String × String))) (b : Option RequestBody) (f : Bool)
    (d : List String)
    (hMap : mapGet st.idToPathMap (some rid) = some d)
    (hNoDraft : st.fs.lookup (d ++ ["~request.json"]) = none) :
    undraft st (.request (some rid) (some pid) t m hh b f) =
      (st, .request (some rid) (some pid) t m hh b false, .ok none) := by
  have hgd : getDirPath st (.request (some rid) (some pid) t m hh b false) =
      .ok d := by
    unfold getDirPath
    simp [RufusObject.isCollection, RufusObject.id, hMap]
  have hex : fsExistsPath st.fs (d ++ ["~request.json"]) = false := by
    unfold fsExistsPath
    rw [hNoDraft]
    rfl
  unfold undraft
  simp only [RufusObject.setDraft, RufusObject.typeName]
  rw [hgd]
  simp only [show ("~" ++ ("request" ++ ".json") : String) = "~request.json"
    from rfl, hex]
  rfl

theorem undraft_draftFile (st : St) (rid pid t : String) (m : Option String)
    (hh : Option (List (String × String))) (b : Option RequestBody) (f : Bool)
    (d : List String) (es : List (String × FsNode)) (ndraft : FsNode)
    (hMap : mapGet st.idToPathMap (some rid) = some d)
    (hDir : st.fs.lookup d = some (.dir es))
    (hDraft : entGet es "~request.json" = some ndraft) :
    undraft st (.request (some rid) (some pid) t m hh b f) =
      (st, .request (some rid) (some pid) t m hh b false,
        .ok (some (d, "request.json"))) := by
  have hgd : getDirPath st (.request (some rid) (some pid) t m hh b false) =
      .ok d := by
    unfold getDirPath
    simp [RufusObject.isCollection, RufusObject.id, hMap]
  have hex : fsExistsPath st.fs (d ++ ["~request.json"]) = true := by
    rw [fsExists_within_dir st.fs d es _ hDir, hDraft]
    rfl
  unfold undraft
  simp only [RufusObject.setDraft, RufusObject.typeName]
  rw [hgd]
  simp only [show ("~" ++ ("request" ++ ".json") : String) = "~request.json"
    from rfl, hex]
  rfl

theorem saveChanges_promote_noBodies (st : St) (rid pid t : String)
    (m : Option String) (hh : Option (List (String × String)))
    (b : Option RequestBody) (f : Bool) (d : List String)
    (es : List (String × FsNode)) (ndraft : FsNode)
    (hMap : mapGet st.idToPathMap (some rid) = some d)
    (hDir : st.fs.lookup d = some (.dir es))
    (hDraft : entGet es "~request.json" = some ndraft)
    (hNoDB : entGet es DRAFT_TEXT_BODY_FILE_NAME = none)
    (hNoB : entGet es TEXT_BODY_FILE_NAME = none) :
    ∃ fs', saveChanges st (.request (some rid) (some pid) t m hh b f) =
      ({ st with fs := fs' }, .request (some rid) (some pid) t m hh b false,
        .ok (.request (some rid) (some pid) t m hh b false)) ∧
      fs'.lookup d = some (.dir (entSet (entDel es "~request.json")
        "request.json" ndraft)) := by
  obtain ⟨fs4, hren, hrenLook⟩ := fsRename_within_dir st.fs d es
    "~request.json" "request.json" ndraft hDir hDraft
  have hDB1 : entGet (entSet (entDel es "~request.json") "request.json"
      ndraft) DRAFT_TEXT_BODY_FILE_NAME = none := by
    unfold entGet entSet entDel at *
    rw [assocGet_assocSet_ne _ _ _ _ (by decide),
      assocGet_assocDel_ne _ _ _ (by decide)]
    exact hNoDB
  have hB1 : entGet (entSet (entDel es "~request.json") "request.json"
      ndraft) TEXT_BODY_FILE_NAME = none := by
    unfold entGet entSet entDel at *
    rw [assocGet_assocSet_ne _ _ _ _ (by decide),
      assocGet_assocDel_ne _ _ _ (by decide)]
    exact hNoB
  have hexDB : fsExistsPath fs4 (d ++ [DRAFT_TEXT_BODY_FILE_NAME]) = false := by
    rw [fsExists_within_dir fs4 d _ _ hrenLook, hDB1]
    rfl
  have hexB : fsExistsPath fs4 (d ++ [TEXT_BODY_FILE_NAME]) = false := by
    rw [fsExists_within_dir fs4 d _ _ hrenLook, hB1]
    rfl
  refine ⟨fs4, ?_, hrenLook⟩
  unfold saveChanges
  rw [undraft_draftFile st rid pid t m hh b f d es ndraft hMap hDir hDraft]
  simp only [show ("~" ++ "request.json" : String) = "~request.json" from rfl]
  rw [hren]
  simp [RufusObject.isRequest, hexDB, hexB]

theorem saveChanges_promote_draftBody (st : St) (rid pid t : String)
    (m : Option String) (hh : Option (List (String × String)))
    (b : Option RequestBody) (f : Bool) (d : List String)
    (es : List (String × FsNode)) (ndraft nb : FsNode)
    (hMap : mapGet st.idToPathMap (some rid) = some d)
    (hDir : st.fs.lookup d = some (.dir es))
    (hDraft : entGet es "~request.json" = some ndraft)
    (hDB : entGet es DRAFT_TEXT_BODY_FILE_NAME = some nb) :
    ∃ fs', saveChanges st (.request (some rid) (some pid) t m hh b f) =
      ({ st with fs := fs' }, .request (some rid) (some pid) t m hh b false,
        .ok (.request (some rid) (some pid) t m hh b false)) ∧
      fs'.lookup d = some (.dir (entSet (entDel (entSet
        (entDel es "~request.json") "request.json" ndraft)
        DRAFT_TEXT_BODY_FILE_NAME) TEXT_BODY_FILE_NAME nb)) := by
  obtain ⟨fs4, hren, hrenLook⟩ := fsRename_within_dir st.fs d es
    "~request.json" "request.json" ndraft hDir hDraft
  have hDB1 : entGet (entSet (entDel es "~request.json") "request.json"
      ndraft) DRAFT_TEXT_BODY_FILE_NAME = some nb := by
    unfold entGet entSet entDel at *
    rw [assocGet_assocSet_ne _ _ _ _ (by decide),
      assocGet_assocDel_ne _ _ _ (by decide)]
    exact hDB
  have hexDB : fsExistsPath fs4 (d ++ [DRAFT_TEXT_BODY_FILE_NAME]) = true := by
    rw [fsExists_within_dir fs4 d _ _ hrenLook, hDB1]
    rfl
  obtain ⟨fs5, hren2, hren2Look⟩ := fsRename_within_dir fs4 d _
    DRAFT_TEXT_BODY_FILE_NAME TEXT_BODY_FILE_NAME nb hrenLook hDB1
  refine ⟨fs5, ?_, hren2Look⟩
  unfold saveChanges
  rw [undraft_draftFile st rid pid t m hh b f d es ndraft hMap hDir hDraft]
  simp only [show ("~" ++ "request.json" : String) = "~request.json" from rfl]
  rw [hren]
  simp only [RufusObject.isRequest, hexDB, if_true]
  rw [hren2]

theorem saveChanges_promote_staleBody (st : St) (rid pid t : String)
    (m : Option String) (hh : Option (List (String × String)))
    (b : Option RequestBody) (f : Bool) (d : List String)
    (es : List (String × FsNode)) (ndraft : FsNode) (cb : FileContent)
    (hMap : mapGet st.idToPathMap (some rid) = some d)
    (hDir : st.fs.lookup d = some (.dir es))
    (hDraft : entGet es "~request.json" = some ndraft)
    (hNoDB : entGet es DRAFT_TEXT_BODY_FILE_NAME = none)
    (hB : entGet es TEXT_BODY_FILE_NAME = some (.file cb)) :
    ∃ fs', saveChanges st (.request (some rid) (some pid) t m hh b f) =
      ({ st with fs := fs' }, .request (some rid) (some pid) t m hh b false,
        .ok (.request (some rid) (some pid) t m hh b false)) ∧
      fs'.lookup d = some (.dir (entDel (entSet
        (entDel es "~request.json") "request.json" ndraft)
        TEXT_BODY_FILE_NAME)) := by
  obtain ⟨fs4, hren, hrenLook⟩ := fsRename_within_dir st.fs d es
    "~request.json" "request.json" ndraft hDir hDraft
  have hDB1 : entGet (entSet (entDel es "~request.json") "request.json"
      ndraft) DRAFT_TEXT_BODY_FILE_NAME = none := by
    unfold entGet entSet entDel at *
    rw [assocGet_assocSet_ne _ _ _ _ (by decide),
      assocGet_assocDel_ne _ _ _ (by decide)]
    exact hNoDB
  have hB1 : entGet (entSet (entDel es "~request.json") "request.json"
      ndraft) TEXT_BODY_FILE_NAME = some (.file cb) := by
    unfold entGet entSet entDel at *
    rw [assocGet_assocSet_ne _ _ _ _ (by decide),
      assocGet_assocDel_ne _ _ _ (by decide)]
    exact hB
  have hexDB : fsExistsPath fs4 (d ++ [DRAFT_TEXT_BODY_FILE_NAME]) = false := by
    rw [fsExists_within_dir fs4 d _ _ hrenLook, hDB1]
    rfl
  have hexB : fsExistsPath fs4 (d ++ [TEXT_BODY_FILE_NAME]) = true := by
    rw [fsExists_within_dir fs4 d _ _ hrenLook, hB1]
    rfl
  obtain ⟨fs5, hunl, hunlLook⟩ := fsUnlink_within_dir fs4 d _
    TEXT_BODY_FILE_NAME cb hrenLook hB1
  refine ⟨fs5, ?_, hunlLook⟩
  unfold saveChanges
  rw [undraft_draftFile st rid pid t m hh b f d es ndraft hMap hDir hDraft]
  simp only [show ("~" ++ "request.json" : String) = "~request.json" from rfl]
  rw [hren]
  simp only [RufusObject.isRequest, hexDB, Bool.false_eq_true, if_false,
    hexB, if_true]
  rw [hunl]

/-- C4: for a request whose draft flag is true (and whose directory is
recorded in the path index), saving the info file writes to the tilde-prefixed
draft filename and leaves the canonical info file's content unchanged, so the
canonical file still holds the pre-edit content; on read the draft file is
authoritative (loadInfoFile returns the draft content with the draft flag);
and saveChanges then renames the draft over the canonical file, making the
canonical info file reflect the edit. -/
theorem c4_draft_isolation (st : St) (rid pid t : String) (m : Option String)
    (hh : Option (List (String × String))) (b : Option RequestBody)
    (d : List String) (es : List (String × FsNode)) (oldC : FsNode)
    (hMap : mapGet st.idToPathMap (some rid) = some d)
    (hDir : st.fs.lookup d = some (.dir es))
    (hCanon : entGet es "request.json" = some oldC)
    (hNoDB : entGet es DRAFT_TEXT_BODY_FILE_NAME = none)
    (hNoB : entGet es TEXT_BODY_FILE_NAME = none) :
    ∃ st1, saveRequest st (.request (some rid) (some pid) t m hh b true) none =
      (st1, .request (some rid) (some pid) t m hh b true, .ok ()) ∧
      st1.fs.lookup (d ++ ["request.json"]) = some oldC ∧
      (∃ es1, st1.fs.lookup d = some (.dir es1) ∧
        loadInfoFile (.dir es1) "request" =
          .ok (toInfoFile (.request (some rid) (some pid) t m hh b true),
            true)) ∧
      ∃ st2, saveChanges st1 (.request (some rid) (some pid) t m hh b true) =
        (st2, .request (some rid) (some pid) t m hh b false,
          .ok (.request (some rid) (some pid) t m hh b false)) ∧
        st2.fs.lookup (d ++ ["request.json"]) =
          some (.file (.json (toInfoFile
            (.request (some rid) (some pid) t m hh b true)))) := by
  obtain ⟨fs2, hsr, hlook⟩ := saveRequest_noPayload_noBodyFile st rid pid t m
    hh b true d es hMap hDir hNoB
  rw [show ((if (true : Bool) then "~" else "") ++ "request" ++ ".json" :
    String) = "~request.json" from rfl] at hlook
  refine ⟨_, hsr, ?_, ?_, ?_⟩
  · rw [lookup_append, hlook]
    simp only [Option.some_bind]
    rw [lookup_dir_single]
    unfold entGet entSet at *
    rw [assocGet_assocSet_ne _ _ _ _ (by decide)]
    exact hCanon
  · refine ⟨_, hlook, ?_⟩
    have hD : entGet (entSet es "~request.json" (.file (.json (toInfoFile
        (.request (some rid) (some pid) t m hh b true)))))
        "~request.json" = some (.file (.json (toInfoFile
        (.request (some rid) (some pid) t m hh b true)))) := by
      unfold entGet entSet
      exact assocGet_assocSet_self _ _ _
    unfold loadInfoFile nodeHas
    simp only [show ("~" ++ ("request" ++ ".json") : String) = "~request.json"
      from rfl, hD, Option.isSome_some, if_true]
  · have hMap1 : mapGet (mapSet st.idToPathMap (some rid) d) (some rid) =
        some d := mapGet_mapSet_self _ _ _
    have hDraft1 : entGet (entSet es "~request.json" (.file (.json (toInfoFile
        (.request (some rid) (some pid) t m hh b true)))))
        "~request.json" = some (.file (.json (toInfoFile
        (.request (some rid) (some pid) t m hh b true)))) := by
      unfold entGet entSet
      exact assocGet_assocSet_self _ _ _
    have hNoDB1 : entGet (entSet es "~request.json" (.file (.json (toInfoFile
        (.request (some rid) (some pid) t m hh b true)))))
        DRAFT_TEXT_BODY_FILE_NAME = none := by
      unfold entGet entSet at *
      rw [assocGet_assocSet_ne _ _ _ _ (by decide)]
      exact hNoDB
    have hNoB1 : entGet (entSet es "~request.json" (.file (.json (toInfoFile
        (.request (some rid) (some pid) t m hh b true)))))
        TEXT_BODY_FILE_NAME = none := by
      unfold entGet entSet at *
      rw [assocGet_assocSet_ne _ _ _ _ (by decide)]
      exact hNoB
    obtain ⟨fs5, hsc, hscLook⟩ := saveChanges_promote_noBodies
      { st with
          fs := fs2,
          idToPathMap := mapSet st.idToPathMap (some rid) d }
      rid pid t m hh b true d _ _ hMap1 hlook hDraft1 hNoDB1 hNoB1
    refine ⟨_, hsc, ?_⟩
    rw [lookup_append, hscLook]
    simp only [Option.some_bind]
    rw [lookup_dir_single]
    unfold entGet entSet
    exact assocGet_assocSet_self _ _ _

/-- Info file content used by the concrete draft-isolation scenario. -/
def c4Info : InfoFile :=
  { title := "Old", vars := none, method := some "GET", headers := none,
    body := none, version := none }

/-- State for the concrete draft-isolation scenario: the request directory
holds only the canonical info file with the pre-edit content. -/
def c4St : St :=
  { fs := .dir [("c", .dir [("r", .dir [("request.json",
      .file (.json c4Info))])])],
    idToPathMap := [(some "r1", ["c", "r"])], nextId := 0, rmLog := [] }

/-- Witness for the draft-isolation theorem at a concrete edited request. -/
theorem c4_draft_isolation_witness :
    ∃ st1, saveRequest c4St (.request (some "r1") (some "c0") "New"
        (some "GET") none none true) none =
      (st1, .request (some "r1") (some "c0") "New" (some "GET") none none true,
        .ok ()) ∧
      st1.fs.lookup (["c", "r"] ++ ["request.json"]) =
        some (.file (.json c4Info)) ∧
      (∃ es1, st1.fs.lookup ["c", "r"] = some (.dir es1) ∧
        loadInfoFile (.dir es1) "request" =
          .ok (toInfoFile (.request (some "r1") (some "c0") "New" (some "GET")
            none none true), true)) ∧
      ∃ st2, saveChanges st1 (.request (some "r1") (some "c0") "New"
          (some "GET") none none true) =
        (st2, .request (some "r1") (some "c0") "New" (some "GET") none none
          false,
          .ok (.request (some "r1") (some "c0") "New" (some "GET") none none
            false)) ∧
        st2.fs.lookup (["c", "r"] ++ ["request.json"]) =
          some (.file (.json (toInfoFile (.request (some "r1") (some "c0")
            "New" (some "GET") none none true)))) :=
  c4_draft_isolation c4St "r1" "c0" "New" (some "GET") none none ["c", "r"]
    [("request.json", .file (.json c4Info))] (.file (.json c4Info))
    (by decide) (by decide) (by decide) (by decide) (by decide)

/-- Info file content used by the concrete saveChanges scenarios. -/
def c6Info : InfoFile :=
  { title := "R", vars := none, method := some "GET", headers := none,
    body := none, version := none }

/-- State with no draft info file on disk for the request directory. -/
def c6St : St :=
  { fs := .dir [("c", .dir [("r", .dir [("request.json",
      .file (.json c6Info))])])],
    idToPathMap := [(some "r1", ["c", "r"])], nextId := 0, rmLog := [] }

/-- C6 counterexample: with no draft info file on disk, saveChanges performs
no file operation and returns the state unchanged, but it does not return the
object unchanged: the draft flag of the in-memory request (here true) is
unconditionally set to false by the undraft probe. -/
theorem c6_noop_still_clears_draft_flag :
    saveChanges c6St (.request (some "r1") (some "c0") "R" (some "GET") none
      none true) =
      (c6St, .request (some "r1") (some "c0") "R" (some "GET") none none false,
        .ok (.request (some "r1") (some "c0") "R" (some "GET") none none
          false)) ∧
    (RufusObject.request (some "r1") (some "c0") "R" (some "GET") none none
      false) ≠
      (RufusObject.request (some "r1") (some "c0") "R" (some "GET") none none
        true) := by
  decide

/-- C6 as amended: when no draft info file exists, saveChanges performs no
file operation and returns the object unchanged except that its draft flag is
forced to false (an object whose flag was already false is returned
unchanged); when a draft info file exists, it is renamed over the canonical
info file, then a draft body file (if present) is renamed over the canonical
body file, else an existing canonical body file is deleted, and the draft
flag is set to false. -/
theorem c6_saveChanges_behaviour :
    (∀ (st : St) (rid pid t : String) (m : Option String)
      (hh : Option (List (String × String))) (b : Option RequestBody)
      (f : Bool) (d : List String),
      mapGet st.idToPathMap (some rid) = some d →
      st.fs.lookup (d ++ ["~request.json"]) = none →
      saveChanges st (.request (some rid) (some pid) t m hh b f) =
        (st, .request (some rid) (some pid) t m hh b false,
          .ok (.request (some rid) (some pid) t m hh b false))) ∧
    (∀ (st : St) (rid pid t : String) (m : Option String)
      (hh : Option (List (String × String))) (b : Option RequestBody)
      (f : Bool) (d : List String) (es : List (String × FsNode))
      (ndraft : FsNode),
      mapGet st.idToPathMap (some rid) = some d →
      st.fs.lookup d = some (.dir es) →
      entGet es "~request.json" = some ndraft →
      entGet es DRAFT_TEXT_BODY_FILE_NAME = none →
      entGet es TEXT_BODY_FILE_NAME = none →
      ∃ fs', saveChanges st (.request (some rid) (some pid) t m hh b f) =
        ({ st with fs := fs' }, .request (some rid) (some pid) t m hh b false,
          .ok (.request (some rid) (some pid) t m hh b false)) ∧
        fs'.lookup d = some (.dir (entSet (entDel es "~request.json")
          "request.json" ndraft))) ∧
    (∀ (st : St) (rid pid t : String) (m : Option String)
      (hh : Option (List (String × String))) (b : Option RequestBody)
      (f : Bool) (d : List String) (es : List (String × FsNode))
      (ndraft nb : FsNode),
      mapGet st.idToPathMap (some rid) = some d →
      st.fs.lookup d = some (.dir es) →
      entGet es "~request.json" = some ndraft →
      entGet es DRAFT_TEXT_BODY_FILE_NAME = some nb →
      ∃ fs', saveChanges st (.request (some rid) (some pid) t m hh b f) =
        ({ st with fs := fs' }, .request (some rid) (some pid) t m hh b false,
          .ok (.request (some rid) (some pid) t m hh b false)) ∧
        fs'.lookup d = some (.dir (entSet (entDel (entSet
          (entDel es "~request.json") "request.json" ndraft)
          DRAFT_TEXT_BODY_FILE_NAME) TEXT_BODY_FILE_NAME nb))) ∧
    (∀ (st : St) (rid pid t : String) (m : Option String)
      (hh : Option (List (String × String))) (b : Option RequestBody)
      (f : Bool) (d : List String) (es : List (String × FsNode))
      (ndraft : FsNode) (cb : FileContent),
      mapGet st.idToPathMap (some rid) = some d →
      st.fs.lookup d = some (.dir es) →
      entGet es "~request.json" = some ndraft →
      entGet es DRAFT_TEXT_BODY_FILE_NAME = none →
      entGet es TEXT_BODY_FILE_NAME = some (.file cb) →
      ∃ fs', saveChanges st (.request (some rid) (some pid) t m hh b f) =
        ({ st with fs := fs' }, .request (some rid) (some pid) t m hh b false,
          .ok (.request (some rid) (some pid) t m hh b false)) ∧
        fs'.lookup d = some (.dir (entDel (entSet
          (entDel es "~request.json") "request.json" ndraft)
          TEXT_BODY_FILE_NAME))) := by
  refine ⟨?_, ?_, ?_, ?_⟩
  · intro st rid pid t m hh b f d hMap hNoDraft
    unfold saveChanges
    rw [undraft_noDraftFile st rid pid t m hh b f d hMap hNoDraft]
  · intro st rid pid t m hh b f d es ndraft hMap hDir hDraft hNoDB hNoB
    exact saveChanges_promote_noBodies st rid pid t m hh b f d es ndraft
      hMap hDir hDraft hNoDB hNoB
  · intro st rid pid t m hh b f d es ndraft nb hMap hDir hDraft hDB
    exact saveChanges_promote_draftBody st rid pid t m hh b f d es ndraft nb
      hMap hDir hDraft hDB
  · intro st rid pid t m hh b f d es ndraft cb hMap hDir hDraft hNoDB hB
    exact saveChanges_promote_staleBody st rid pid t m hh b f d es ndraft cb
      hMap hDir hDraft hNoDB hB

/-- State with a draft info file and no body files. -/
def c6DraftSt : St :=
  { fs := .dir [("c", .dir [("r", .dir [
      ("request.json", .file (.json c6Info)),
      ("~request.json", .file (.json c6Info))])])],
    idToPathMap := [(some "r1", ["c", "r"])], nextId := 0, rmLog := [] }

/-- State with a draft info file and a draft body file. -/
def c6DraftBodySt : St :=
  { fs := .dir [("c", .dir [("r", .dir [
      ("request.json", .file (.json c6Info)),
      ("~request.json", .file (.json c6Info)),
      ("~body.txt", .file (.blob "draft body"))])])],
    idToPathMap := [(some "r1", ["c", "r"])], nextId := 0, rmLog := [] }

/-- State with a draft info file and a stale canonical body file. -/
def c6StaleSt : St :=
  { fs := .dir [("c", .dir [("r", .dir [
      ("request.json", .file (.json c6Info)),
      ("~request.json", .file (.json c6Info)),
      ("body.txt", .file (.blob "stale"))])])],
    idToPathMap := [(some "r1", ["c", "r"])], nextId := 0, rmLog := [] }

/-- Witness for the amended saveChanges theorem at concrete states covering
all four cases. -/
theorem c6_saveChanges_behaviour_witness :
    (saveChanges c6St (.request (some "r1") (some "c0") "R" (some "GET") none
      none false) =
      (c6St, .request (some "r1") (some "c0") "R" (some "GET") none none false,
        .ok (.request (some "r1") (some "c0") "R" (some "GET") none none
          false))) ∧
    (∃ fs', saveChanges c6DraftSt (.request (some "r1") (some "c0") "R"
        (some "GET") none none true) =
      ({ c6DraftSt with fs := fs' },
        .request (some "r1") (some "c0") "R" (some "GET") none none false,
        .ok (.request (some "r1") (some "c0") "R" (some "GET") none none
          false)) ∧
      fs'.lookup ["c", "r"] = some (.dir (entSet (entDel
        [("request.json", .file (.json c6Info)),
          ("~request.json", .file (.json c6Info))] "~request.json")
        "request.json" (.file (.json c6Info))))) ∧
    (∃ fs', saveChanges c6DraftBodySt (.request (some "r1") (some "c0") "R"
        (some "GET") none none true) =
      ({ c6DraftBodySt with fs := fs' },
        .request (some "r1") (some "c0") "R" (some "GET") none none false,
        .ok (.request (some "r1") (some "c0") "R" (some "GET") none none
          false)) ∧
      fs'.lookup ["c", "r"] = some (.dir (entSet (entDel (entSet (entDel
        [("request.json", .file (.json c6Info)),
          ("~request.json", .file (.json c6Info)),
          ("~body.txt", .file (.blob "draft body"))] "~request.json")
        "request.json" (.file (.json c6Info))) DRAFT_TEXT_BODY_FILE_NAME)
        TEXT_BODY_FILE_NAME (.file (.blob "draft body"))))) ∧
    (∃ fs', saveChanges c6StaleSt (.request (some "r1") (some "c0") "R"
        (some "GET") none none true) =
      ({ c6StaleSt with fs := fs' },
        .request (some "r1") (some "c0") "R" (some "GET") none none false,
        .ok (.request (some "r1") (some "c0") "R" (some "GET") none none
          false)) ∧
      fs'.lookup ["c", "r"] = some (.dir (entDel (entSet (entDel
        [("request.json", .file (.json c6Info)),
          ("~request.json", .file (.json c6Info)),
          ("body.txt", .file (.blob "stale"))] "~request.json")
        "request.json" (.file (.json c6Info))) TEXT_BODY_FILE_NAME))) :=
  ⟨c6_saveChanges_behaviour.1 c6St "r1" "c0" "R" (some "GET") none none false
      ["c", "r"] (by decide) (by decide),
    c6_saveChanges_behaviour.2.1 c6DraftSt "r1" "c0" "R" (some "GET") none
      none true ["c", "r"]
      [("request.json", .file (.json c6Info)),
        ("~request.json", .file (.json c6Info))] (.file (.json c6Info))
      (by decide) (by decide) (by decide) (by decide) (by decide),
    c6_saveChanges_behaviour.2.2.1 c6DraftBodySt "r1" "c0" "R" (some "GET")
      none none true ["c", "r"]
      [("request.json", .file (.json c6Info)),
        ("~request.json", .file (.json c6Info)),
        ("~body.txt", .file (.blob "draft body"))] (.file (.json c6Info))
      (.file (.blob "draft body"))
      (by decide) (by decide) (by decide) (by decide),
    c6_saveChanges_behaviour.2.2.2 c6StaleSt "r1" "c0" "R" (some "GET") none
      none true ["c", "r"]
      [("request.json", .file (.json c6Info)),
        ("~request.json", .file (.json c6Info)),
        ("body.txt", .file (.blob "stale"))] (.file (.json c6Info))
      (.blob "stale")
      (by decide) (by decide) (by decide) (by decide) (by decide)⟩

mutual

/-- Identifier fields of every object in a subtree (the object itself first,
then its descendants in order). -/
def subtreeIds : RufusObject → List (Option String)
  | .collection i _ _ _ cs => i :: subtreeIdsList cs
  | .folder i _ _ cs => i :: subtreeIdsList cs
  | .request i _ _ _ _ _ _ => [i]

/-- Identifier fields of every object in a forest of subtrees. -/
def subtreeIdsList : List RufusObject → List (Option String)
  | [] => []
  | c :: rest => subtreeIds c ++ subtreeIdsList rest

end

theorem mapGet_mapDelete_of_none (m : List (Option String × List String))
    (k k' : Option String) (h : mapGet m k = none) :
    mapGet (mapDelete m k') k = none := by
  by_cases hk : k = k'
  · rw [hk]
    exact mapGet_mapDelete_self m k'
  · rw [mapGet_mapDelete_ne m k' k hk]
    exact h

theorem deleteOp_request_eq (st : St) (i p : Option String) (t : String)
    (m : Option String) (hh : Option (List (String × String)))
    (b : Option RequestBody) (f : Bool) :
    deleteOp st (.request i p t m hh b f) =
      match getDirPath st (.request i p t m hh b f) with
      | .error e => (st, .error e)
      | .ok d =>
        match fsRm st.fs d with
        | some fs1 => ({ st with
            idToPathMap := mapDelete st.idToPathMap i,
            fs := fs1,
            rmLog := st.rmLog ++ [d] }, .ok ())
        | none => ({ st with
            idToPathMap := mapDelete st.idToPathMap i }, .error .ioError) := rfl

theorem deleteOp_folder_eq (st : St) (i p : Option String) (t : String)
    (cs : List RufusObject) :
    deleteOp st (.folder i p t cs) =
      match getDirPath st (.folder i p t cs) with
      | .error e => (st, .error e)
      | .ok d =>
        match deleteList st cs with
        | (st1, .error e) => (st1, .error e)
        | (st1, .ok _) =>
          match fsRm st1.fs d with
          | some fs1 => ({ st1 with
              idToPathMap := mapDelete st1.idToPathMap i,
              fs := fs1,
              rmLog := st1.rmLog ++ [d] }, .ok ())
          | none => ({ st1 with
              idToPathMap := mapDelete st1.idToPathMap i },
              .error .ioError) := rfl

theorem deleteOp_collection_eq (st : St) (i : Option String) (t : String)
    (v : Option (List (String × String))) (dp : List String)
    (cs : List RufusObject) :
    deleteOp st (.collection i t v dp cs) =
      match getDirPath st (.collection i t v dp cs) with
      | .error e => (st, .error e)
      | .ok d =>
        match deleteList st cs with
        | (st1, .error e) => (st1, .error e)
        | (st1, .ok _) =>
          match fsRm st1.fs d with
          | some fs1 => ({ st1 with
              idToPathMap := mapDelete st1.idToPathMap i,
              fs := fs1,
              rmLog := st1.rmLog ++ [d] }, .ok ())
          | none => ({ st1 with
              idToPathMap := mapDelete st1.idToPathMap i },
              .error .ioError) := rfl

theorem deleteList_nil_eq (st : St) : deleteList st [] = (st, .ok ()) := rfl

theorem deleteList_cons_eq (st : St) (c : RufusObject)
    (rest : List RufusObject) :
    deleteList st (c :: rest) =
      match deleteOp st c with
      | (st1, .ok _) => deleteList st1 rest
      | (st1, .error e) => (st1, .error e) := rfl

theorem deleteOp_err (st : St) (o : RufusObject) (e : PError)
    (hgd : getDirPath st o = .error e) :
    deleteOp st o = (st, .error e) := by
  cases o with
  | request i p t m hh b f => rw [deleteOp_request_eq, hgd]
  | folder i p t cs => rw [deleteOp_folder_eq, hgd]
  | collection i t v dp cs => rw [deleteOp_collection_eq, hgd]

theorem deleteOp_request_ok (st : St) (i p : Option String) (t : String)
    (m : Option String) (hh : Option (List (String × String)))
    (b : Option RequestBody) (f : Bool) (d : List String)
    (hgd : getDirPath st (.request i p t m hh b f) = .ok d) :
    deleteOp st (.request i p t m hh b f) =
      match fsRm st.fs d with
      | some fs1 => ({ st with
          idToPathMap := mapDelete st.idToPathMap i,
          fs := fs1,
          rmLog := st.rmLog ++ [d] }, .ok ())
      | none => ({ st with
          idToPathMap := mapDelete st.idToPathMap i }, .error .ioError) := by
  rw [deleteOp_request_eq, hgd]

theorem deleteOp_folder_childErr (st st1 : St) (i p : Option String)
    (t : String) (cs : List RufusObject) (d : List String) (e : PError)
    (hgd : getDirPath st (.folder i p t cs) = .ok d)
    (hdl : deleteList st cs = (st1, .error e)) :
    deleteOp st (.folder i p t cs) = (st1, .error e) := by
  rw [deleteOp_folder_eq, hgd, hdl]

theorem deleteOp_folder_ok (st st1 : St) (i p : Option String) (t : String)
    (cs : List RufusObject) (d : List String) (u : Unit)
    (hgd : getDirPath st (.folder i p t cs) = .ok d)
    (hdl : deleteList st cs = (st1, .ok u)) :
    deleteOp st (.folder i p t cs) =
      match fsRm st1.fs d with
      | some fs1 => ({ st1 with
          idToPathMap := mapDelete st1.idToPathMap i,
          fs := fs1,
          rmLog := st1.rmLog ++ [d] }, .ok ())
      | none => ({ st1 with
          idToPathMap := mapDelete st1.idToPathMap i },
          .error .ioError) := by
  rw [deleteOp_folder_eq, hgd, hdl]

theorem deleteOp_collection_childErr (st st1 : St) (i : Option String)
    (t : String) (v : Option (List (String × String))) (dp : List String)
    (cs : List RufusObject) (d : List String) (e : PError)
    (hgd : getDirPath st (.collection i t v dp cs) = .ok d)
    (hdl : deleteList st cs = (st1, .error e)) :
    deleteOp st (.collection i t v dp cs) = (st1, .error e) := by
  rw [deleteOp_collection_eq, hgd, hdl]

theorem deleteOp_collection_ok (st st1 : St) (i : Option String) (t : String)
    (v : Option (List (String × String))) (dp : List String)
    (cs : List RufusObject) (d : List String) (u : Unit)
    (hgd : getDirPath st (.collection i t v dp cs) = .ok d)
    (hdl : deleteList st cs = (st1, .ok u)) :
    deleteOp st (.collection i t v dp cs) =
      match fsRm st1.fs d with
      | some fs1 => ({ st1 with
          idToPathMap := mapDelete st1.idToPathMap i,
          fs := fs1,
          rmLog := st1.rmLog ++ [d] }, .ok ())
      | none => ({ st1 with
          idToPathMap := mapDelete st1.idToPathMap i },
          .error .ioError) := by
  rw [deleteOp_collection_eq, hgd, hdl]

theorem deleteList_cons_childErr (st st1 : St) (c : RufusObject)
    (rest : List RufusObject) (e : PError)
    (hdc : deleteOp st c = (st1, .error e)) :
    deleteList st (c :: rest) = (st1, .error e) := by
  rw [deleteList_cons_eq, hdc]

theorem deleteList_cons_ok (st st1 : St) (c : RufusObject)
    (rest : List RufusObject) (u : Unit)
    (hdc : deleteOp st c = (st1, .ok u)) :
    deleteList st (c :: rest) = deleteList st1 rest := by
  rw [deleteList_cons_eq, hdc]

mutual

theorem delete_map_none (st : St) (o : RufusObject) (k : Option String)
    (h : mapGet st.idToPathMap k = none) :
    mapGet (deleteOp st o).1.idToPathMap k = none := by
  cases o with
  | request i p t m hh b f =>
    cases hgd : getDirPath st (.request i p t m hh b f) with
    | error e =>
      rw [deleteOp_err st _ e hgd]
      exact h
    | ok d =>
      rw [deleteOp_request_ok st i p t m hh b f d hgd]
      cases hrm : fsRm st.fs d with
      | some fs1 => exact mapGet_mapDelete_of_none _ _ _ h
      | none => exact mapGet_mapDelete_of_none _ _ _ h
  | folder i p t cs =>
    cases hgd : getDirPath st (.folder i p t cs) with
    | error e =>
      rw [deleteOp_err st _ e hgd]
      exact h
    | ok d =>
      cases hdl : deleteList st cs with
      | mk st1 r =>
        have h1 : mapGet st1.idToPathMap k = none := by
          have h2 := deleteList_map_none st cs k h
          rw [hdl] at h2
          exact h2
        cases r with
        | error e =>
          rw [deleteOp_folder_childErr st st1 i p t cs d e hgd hdl]
          exact h1
        | ok u =>
          rw [deleteOp_folder_ok st st1 i p t cs d u hgd hdl]
          cases hrm : fsRm st1.fs d with
          | some fs1 => exact mapGet_mapDelete_of_none _ _ _ h1
          | none => exact mapGet_mapDelete_of_none _ _ _ h1
  | collection i t v dp cs =>
    cases hgd : getDirPath st (.collection i t v dp cs) with
    | error e =>
      rw [deleteOp_err st _ e hgd]
      exact h
    | ok d =>
      cases hdl : deleteList st cs with
      | mk st1 r =>
        have h1 : mapGet st1.idToPathMap k = none := by
          have h2 := deleteList_map_none st cs k h
          rw [hdl] at h2
          exact h2
        cases r with
        | error e =>
          rw [deleteOp_collection_childErr st st1 i t v dp cs d e hgd hdl]
          exact h1
        | ok u =>
          rw [deleteOp_collection_ok st st1 i t v dp cs d u hgd hdl]
          cases hrm : fsRm st1.fs d with
          | some fs1 => exact mapGet_mapDelete_of_none _ _ _ h1
          | none => exact mapGet_mapDelete_of_none _ _ _ h1

theorem deleteList_map_none (st : St) (cs : List RufusObject)
    (k : Option String) (h : mapGet st.idToPathMap k = none) :
    mapGet (deleteList st cs).1.idToPathMap k = none := by
  cases cs with
  | nil => exact h
  | cons c rest =>
    cases hdc : deleteOp st c with
    | mk st1 r =>
      have h1 : mapGet st1.idToPathMap k = none := by
        have h2 := delete_map_none st c k h
        rw [hdc] at h2
        exact h2
      cases r with
      | error e =>
        rw [deleteList_cons_childErr st st1 c rest e hdc]
        exact h1
      | ok u =>
        rw [deleteList_cons_ok st st1 c rest u hdc]
        exact deleteList_map_none st1 rest k h1

end

mutual

theorem delete_log (st : St) (o : RufusObject) :
    ∃ l, (deleteOp st o).1.rmLog = st.rmLog ++ l := by
  cases o with
  | request i p t m hh b f =>
    cases hgd : getDirPath st (.request i p t m hh b f) with
    | error e =>
      rw [deleteOp_err st _ e hgd]
      exact ⟨[], (List.append_nil _).symm⟩
    | ok d =>
      rw [deleteOp_request_ok st i p t m hh b f d hgd]
      cases hrm : fsRm st.fs d with
      | some fs1 => exact ⟨[d], rfl⟩
      | none => exact ⟨[], (List.append_nil _).symm⟩
  | folder i p t cs =>
    cases hgd : getDirPath st (.folder i p t cs) with
    | error e =>
      rw [deleteOp_err st _ e hgd]
      exact ⟨[], (List.append_nil _).symm⟩
    | ok d =>
      cases hdl : deleteList st cs with
      | mk st1 r =>
        obtain ⟨l1, hl1⟩ : ∃ l, st1.rmLog = st.rmLog ++ l := by
          have h2 := deleteList_log st cs
          rw [hdl] at h2
          exact h2
        cases r with
        | error e =>
          rw [deleteOp_folder_childErr st st1 i p t cs d e hgd hdl]
          exact ⟨l1, hl1⟩
        | ok u =>
          rw [deleteOp_folder_ok st st1 i p t cs d u hgd hdl]
          cases hrm : fsRm st1.fs d with
          | some fs1 =>
            refine ⟨l1 ++ [d], ?_⟩
            show st1.rmLog ++ [d] = st.rmLog ++ (l1 ++ [d])
            rw [hl1, List.append_assoc]
          | none => exact ⟨l1, hl1⟩
  | collection i t v dp cs =>
    cases hgd : getDirPath st (.collection i t v dp cs) with
    | error e =>
      rw [deleteOp_err st _ e hgd]
      exact ⟨[], (List.append_nil _).symm⟩
    | ok d =>
      cases hdl : deleteList st cs with
      | mk st1 r =>
        obtain ⟨l1, hl1⟩ : ∃ l, st1.rmLog = st.rmLog ++ l := by
          have h2 := deleteList_log st cs
          rw [hdl] at h2
          exact h2
        cases r with
        | error e =>
          rw [deleteOp_collection_childErr st st1 i t v dp cs d e hgd hdl]
          exact ⟨l1, hl1⟩
        | ok u =>
          rw [deleteOp_collection_ok st st1 i t v dp cs d u hgd hdl]
          cases hrm : fsRm st1.fs d with
          | some fs1 =>
            refine ⟨l1 ++ [d], ?_⟩
            show st1.rmLog ++ [d] = st.rmLog ++ (l1 ++ [d])
            rw [hl1, List.append_assoc]
          | none => exact ⟨l1, hl1⟩

theorem deleteList_log (st : St) (cs : List RufusObject) :
    ∃ l, (deleteList st cs).1.rmLog = st.rmLog ++ l := by
  cases cs with
  | nil => exact ⟨[], (List.append_nil _).symm⟩
  | cons c rest =>
    cases hdc : deleteOp st c with
    | mk st1 r =>
      obtain ⟨l1, hl1⟩ : ∃ l, st1.rmLog = st.rmLog ++ l := by
        have h2 := delete_log st c
        rw [hdc] at h2
        exact h2
      cases r with
      | error e =>
        rw [deleteList_cons_childErr st st1 c rest e hdc]
        exact ⟨l1, hl1⟩
      | ok u =>
        rw [deleteList_cons_ok st st1 c rest u hdc]
        obtain ⟨l2, hl2⟩ := deleteList_log st1 rest
        refine ⟨l1 ++ l2, ?_⟩
        rw [hl2, hl1, List.append_assoc]

end

mutual

theorem delete_ok_ids (st st' : St) (o : RufusObject) (u : Unit)
    (h : deleteOp st o = (st', .ok u)) :
    ∀ k ∈ subtreeIds o, mapGet st'.idToPathMap k = none := by
  cases o with
  | request i p t m hh b f =>
    cases hgd : getDirPath st (.request i p t m hh b f) with
    | error e =>
      rw [deleteOp_err st _ e hgd] at h
      simp at h
    | ok d =>
      rw [deleteOp_request_ok st i p t m hh b f d hgd] at h
      cases hrm : fsRm st.fs d with
      | none =>
        rw [hrm] at h
        simp at h
      | some fs1 =>
        rw [hrm] at h
        have hst : st' = { st with
            idToPathMap := mapDelete st.idToPathMap i,
            fs := fs1,
            rmLog := st.rmLog ++ [d] } := by
          have := (Prod.mk.injEq _ _ _ _).mp h
          exact this.1.symm
        intro k hk
        have hk' : k = i := by
          simpa [subtreeIds] using hk
        rw [hst, hk']
        exact mapGet_mapDelete_self _ _
  | folder i p t cs =>
    cases hgd : getDirPath st (.folder i p t cs) with
    | error e =>
      rw [deleteOp_err st _ e hgd] at h
      simp at h
    | ok d =>
      cases hdl : deleteList st cs with
      | mk st1 r =>
        cases r with
        | error e =>
          rw [deleteOp_folder_childErr st st1 i p t cs d e hgd hdl] at h
          simp at h
        | ok u1 =>
          rw [deleteOp_folder_ok st st1 i p t cs d u1 hgd hdl] at h
          cases hrm : fsRm st1.fs d with
          | none =>
            rw [hrm] at h
            simp at h
          | some fs1 =>
            rw [hrm] at h
            have hst : st' = { st1 with
                idToPathMap := mapDelete st1.idToPathMap i,
                fs := fs1,
                rmLog := st1.rmLog ++ [d] } := by
              have := (Prod.mk.injEq _ _ _ _).mp h
              exact this.1.symm
            intro k hk
            rw [show subtreeIds (.folder i p t cs) = i :: subtreeIdsList cs
              from rfl] at hk
            rcases List.mem_cons.mp hk with hk' | hk'
            · rw [hst, hk']
              exact mapGet_mapDelete_self _ _
            · have h1 := deleteList_ok_ids st st1 cs u1 hdl k hk'
              rw [hst]
              exact mapGet_mapDelete_of_none _ _ _ h1
  | collection i t v dp cs =>
    cases hgd : getDirPath st (.collection i t v dp cs) with
    | error e =>
      rw [deleteOp_err st _ e hgd] at h
      simp at h
    | ok d =>
      cases hdl : deleteList st cs with
      | mk st1 r =>
        cases r with
        | error e =>
          rw [deleteOp_collection_childErr st st1 i t v dp cs d e hgd hdl] at h
          simp at h
        | ok u1 =>
          rw [deleteOp_collection_ok st st1 i t v dp cs d u1 hgd hdl] at h
          cases hrm : fsRm st1.fs d with
          | none =>
            rw [hrm] at h
            simp at h
          | some fs1 =>
            rw [hrm] at h
            have hst : st' = { st1 with
                idToPathMap := mapDelete st1.idToPathMap i,
                fs := fs1,
                rmLog := st1.rmLog ++ [d] } := by
              have := (Prod.mk.injEq _ _ _ _).mp h
              exact this.1.symm
            intro k hk
            rw [show subtreeIds (.collection i t v dp cs) =
              i :: subtreeIdsList cs from rfl] at hk
            rcases List.mem_cons.mp hk with hk' | hk'
            · rw [hst, hk']
              exact mapGet_mapDelete_self _ _
            · have h1 := deleteList_ok_ids st st1 cs u1 hdl k hk'
              rw [hst]
              exact mapGet_mapDelete_of_none _ _ _ h1

theorem deleteList_ok_ids (st st' : St) (cs : List RufusObject) (u : Unit)
    (h : deleteList st cs = (st', .ok u)) :
    ∀ k ∈ subtreeIdsList cs, mapGet st'.idToPathMap k = none := by
  cases cs with
  | nil =>
    intro k hk
    simp [subtreeIdsList] at hk
  | cons c rest =>
    cases hdc : deleteOp st c with
    | mk st1 r =>
      cases r with
      | error e =>
        rw [deleteList_cons_childErr st st1 c rest e hdc] at h
        simp at h
      | ok u1 =>
        rw [deleteList_cons_ok st st1 c rest u1 hdc] at h
        intro k hk
        rw [show subtreeIdsList (c :: rest) =
          subtreeIds c ++ subtreeIdsList rest from rfl] at hk
        rcases List.mem_append.mp hk with hk' | hk'
        · have h1 := delete_ok_ids st st1 c u1 hdc k hk'
          have h2 := deleteList_map_none st1 rest k h1
          rw [h] at h2
          exact h2
        · exact deleteList_ok_ids st1 st' rest u h k hk'

end

theorem delete_ok_main (st st' : St) (o : RufusObject)
    (h : deleteOp st o = (st', .ok ())) :
    ∃ d l, getDirPath st o = .ok d ∧ st'.fs.lookup d = none ∧
      st'.rmLog = st.rmLog ++ l ++ [d] := by
  cases o with
  | request i p t m hh b f =>
    cases hgd : getDirPath st (.request i p t m hh b f) with
    | error e =>
      rw [deleteOp_err st _ e hgd] at h
      simp at h
    | ok d =>
      rw [deleteOp_request_ok st i p t m hh b f d hgd] at h
      cases hrm : fsRm st.fs d with
      | none =>
        rw [hrm] at h
        simp at h
      | some fs1 =>
        rw [hrm] at h
        have hst : st' = { st with
            idToPathMap := mapDelete st.idToPathMap i,
            fs := fs1,
            rmLog := st.rmLog ++ [d] } := by
          have := (Prod.mk.injEq _ _ _ _).mp h
          exact this.1.symm
        refine ⟨d, [], rfl, ?_, ?_⟩
        · rw [hst]
          exact removeAt_lookup_none d st.fs fs1 hrm
        · rw [hst, List.append_nil]
  | folder i p t cs =>
    cases hgd : getDirPath st (.folder i p t cs) with
    | error e =>
      rw [deleteOp_err st _ e hgd] at h
      simp at h
    | ok d =>
      cases hdl : deleteList st cs with
      | mk st1 r =>
        cases r with
        | error e =>
          rw [deleteOp_folder_childErr st st1 i p t cs d e hgd hdl] at h
          simp at h
        | ok u1 =>
          rw [deleteOp_folder_ok st st1 i p t cs d u1 hgd hdl] at h
          cases hrm : fsRm st1.fs d with
          | none =>
            rw [hrm] at h
            simp at h
          | some fs1 =>
            rw [hrm] at h
            have hst : st' = { st1 with
                idToPathMap := mapDelete st1.idToPathMap i,
                fs := fs1,
                rmLog := st1.rmLog ++ [d] } := by
              have := (Prod.mk.injEq _ _ _ _).mp h
              exact this.1.symm
            obtain ⟨l1, hl1⟩ : ∃ l, st1.rmLog = st.rmLog ++ l := by
              have h2 := deleteList_log st cs
              rw [hdl] at h2
              exact h2
            refine ⟨d, l1, rfl, ?_, ?_⟩
            · rw [hst]
              exact removeAt_lookup_none d st1.fs fs1 hrm
            · rw [hst]
              show st1.rmLog ++ [d] = st.rmLog ++ l1 ++ [d]
              rw [hl1]
  | collection i t v dp cs =>
    cases hgd : getDirPath st (.collection i t v dp cs) with
    | error e =>
      rw [deleteOp_err st _ e hgd] at h
      simp at h
    | ok d =>
      cases hdl : deleteList st cs with
      | mk st1 r =>
        cases r with
        | error e =>
          rw [deleteOp_collection_childErr st st1 i t v dp cs d e hgd hdl] at h
          simp at h
        | ok u1 =>
          rw [deleteOp_collection_ok st st1 i t v dp cs d u1 hgd hdl] at h
          cases hrm : fsRm st1.fs d with
          | none =>
            rw [hrm] at h
            simp at h
          | some fs1 =>
            rw [hrm] at h
            have hst : st' = { st1 with
                idToPathMap := mapDelete st1.idToPathMap i,
                fs := fs1,
                rmLog := st1.rmLog ++ [d] } := by
              have := (Prod.mk.injEq _ _ _ _).mp h
              exact this.1.symm
            obtain ⟨l1, hl1⟩ : ∃ l, st1.rmLog = st.rmLog ++ l := by
              have h2 := deleteList_log st cs
              rw [hdl] at h2
              exact h2
            refine ⟨d, l1, rfl, ?_, ?_⟩
            · rw [hst]
              exact removeAt_lookup_none d st1.fs fs1 hrm
            · rw [hst]
              show st1.rmLog ++ [d] = st.rmLog ++ l1 ++ [d]
              rw [hl1]

/-- C7: whenever delete succeeds, every identifier in the deleted subtree
(the object's own and every descendant's) is absent from the path index
afterwards, the object's directory (resolved before deletion) is gone from
the file system together with everything beneath it, and the log of fs.rm
calls shows the object's own directory removed last, after all removals
performed for its children (depth-first, children first). -/
theorem c7_delete_removes_subtree (st : St) (o : RufusObject)
    (h : (deleteOp st o).2 = .ok ()) :
    (∀ k ∈ subtreeIds o, mapGet (deleteOp st o).1.idToPathMap k = none) ∧
    ∃ d l, getDirPath st o = .ok d ∧
      (deleteOp st o).1.fs.lookup d = none ∧
      (deleteOp st o).1.rmLog = st.rmLog ++ l ++ [d] := by
  have hpair : deleteOp st o = ((deleteOp st o).1, .ok ()) := by
    have : deleteOp st o = ((deleteOp st o).1, (deleteOp st o).2) := rfl
    rw [h] at this
    exact this
  exact ⟨delete_ok_ids st (deleteOp st o).1 o () hpair,
    delete_ok_main st (deleteOp st o).1 o hpair⟩

/-- Info file content used by the concrete delete scenario. -/
def c7Info : InfoFile :=
  { title := "F", vars := none, method := none, headers := none,
    body := none, version := none }

/-- Folder with two requests, all three recorded in the path index. -/
def c7Folder : RufusObject :=
  .folder (some "f1") (some "c9") "F" [
    .request (some "r1") (some "f1") "A" none none none false,
    .request (some "r2") (some "f1") "B" none none none false]

/-- State for the concrete delete scenario: folder directory c/f with the two
request directories c/f/a and c/f/b. -/
def c7St : St :=
  { fs := .dir [("c", .dir [("f", .dir [
      ("folder.json", .file (.json c7Info)),
      ("a", .dir [("request.json", .file (.json c7Info))]),
      ("b", .dir [("request.json", .file (.json c7Info))])])])],
    idToPathMap := [(some "f1", ["c", "f"]), (some "r1", ["c", "f", "a"]),
      (some "r2", ["c", "f", "b"])],
    nextId := 0, rmLog := [] }

/-- Witness for the delete theorem: deleting the folder that contains two
requests succeeds, and all three identifiers are gone from the path index. -/
theorem c7_delete_removes_subtree_witness :
    (deleteOp c7St c7Folder).2 = .ok () ∧
    mapGet (deleteOp c7St c7Folder).1.idToPathMap (some "f1") = none ∧
    mapGet (deleteOp c7St c7Folder).1.idToPathMap (some "r1") = none ∧
    mapGet (deleteOp c7St c7Folder).1.idToPathMap (some "r2") = none :=
  ⟨by decide,
    (c7_delete_removes_subtree c7St c7Folder (by decide)).1 (some "f1")
      (by decide),
    (c7_delete_removes_subtree c7St c7Folder (by decide)).1 (some "r1")
      (by decide),
    (c7_delete_removes_subtree c7St c7Folder (by decide)).1 (some "r2")
      (by decide)⟩

theorem setId_parentId (o : RufusObject) (i : Option String) :
    (o.setId i).parentId = o.parentId := by
  cases o <;> rfl

theorem setId_isCollection (o : RufusObject) (i : Option String) :
    (o.setId i).isCollection = o.isCollection := by
  cases o <;> rfl

theorem getDirPath_error_is_typeError (st : St) (o : RufusObject) (e : PError)
    (h : getDirPath st o = .error e) : e = .typeError := by
  unfold getDirPath at h
  split at h
  · cases h
  · split at h
    · cases h
    · split at h
      · cases h
      · cases h
        rfl

theorem saveInfoFile_invariant_iff (st : St) (o : RufusObject)
    (d : List String) (fn : String) :
    ((saveInfoFile st o d fn).2.2 = .error .mustHaveParent) ↔
      (!o.isCollection && o.parentId.isNone) = true := by
  unfold saveInfoFile
  cases hid : o.id.isNone with
  | true =>
    by_cases hc : (!o.isCollection && o.parentId.isNone) = true
    · simp [hc, setId_parentId, setId_isCollection]
    · apply iff_of_false ?_ hc
      intro habs
      have hcf : (!o.isCollection && o.parentId.isNone) = false :=
        Bool.not_eq_true _ |>.mp hc
      simp [hcf, setId_parentId, setId_isCollection] at habs
      cases hex : fsExistsPath st.fs d with
      | true =>
        simp only [hex, if_true] at habs
        cases hw : fsWriteFile st.fs (d ++ [fn])
            (.json (toInfoFile (o.setId (some (uuidStr st.nextId))))) with
        | some fs2 => simp [hw] at habs
        | none => simp [hw] at habs
      | false =>
        simp only [hex] at habs
        cases hmk : fsMkdir st.fs d with
        | none => simp [hmk] at habs
        | some fs1 =>
          cases hw : fsWriteFile fs1 (d ++ [fn])
              (.json (toInfoFile (o.setId (some (uuidStr st.nextId))))) with
          | some fs2 => simp [hmk, hw] at habs
          | none => simp [hmk, hw] at habs
  | false =>
    by_cases hc : (!o.isCollection && o.parentId.isNone) = true
    · simp [hc]
    · apply iff_of_false ?_ hc
      intro habs
      have hcf : (!o.isCollection && o.parentId.isNone) = false :=
        Bool.not_eq_true _ |>.mp hc
      simp [hcf] at habs
      cases hex : fsExistsPath st.fs d with
      | true =>
        simp only [hex, if_true] at habs
        cases hw : fsWriteFile st.fs (d ++ [fn]) (.json (toInfoFile o)) with
        | some fs2 => simp [hw] at habs
        | none => simp [hw] at habs
      | false =>
        simp only [hex] at habs
        cases hmk : fsMkdir st.fs d with
        | none => simp [hmk] at habs
        | some fs1 =>
          cases hw : fsWriteFile fs1 (d ++ [fn]) (.json (toInfoFile o)) with
          | some fs2 => simp [hmk, hw] at habs
          | none => simp [hmk, hw] at habs

theorem saveInfoFile_invariant_eq (st : St) (o : RufusObject)
    (d : List String) (fn : String)
    (hc : (!o.isCollection && o.parentId.isNone) = true) :
    saveInfoFile st o d fn =
      ((if o.id.isNone then { st with nextId := st.nextId + 1 } else st),
        (if o.id.isNone then o.setId (some (uuidStr st.nextId)) else o),
        .error .mustHaveParent) := by
  unfold saveInfoFile
  cases hid : o.id.isNone with
  | true =>
    have hc2 : (!(o.setId (some (uuidStr st.nextId))).isCollection &&
        (o.setId (some (uuidStr st.nextId))).parentId.isNone) = true := by
      rw [setId_parentId, setId_isCollection]
      exact hc
    simp [hid, hc2]
  | false => simp [hid, hc]

theorem saveRequest_invariant_iff (st : St) (i p : Option String) (t : String)
    (m : Option String) (hh : Option (List (String × String)))
    (b : Option RequestBody) (f : Bool) (tb : Option String)
    (hNoneKey : mapGet st.idToPathMap none = none) :
    (((saveRequest st (.request i p t m hh b f) tb).2.2 =
        .error .mustHaveParent) ↔
      (p = none ∧ mapHas st.idToPathMap i = true)) ∧
    (p = none →
      (saveRequest st (.request i p t m hh b f) tb).1.fs = st.fs ∧
      (saveRequest st (.request i p t m hh b f) tb).2.2 ≠ .ok ()) := by
  cases p with
  | none =>
    cases hgi : mapGet st.idToPathMap i with
    | none =>
      have hgd : getDirPath st (.request i none t m hh b f) =
          .error .typeError := by
        unfold getDirPath
        simp [RufusObject.isCollection, RufusObject.id, RufusObject.parentId,
          hgi, hNoneKey]
      have hsr : saveRequest st (.request i none t m hh b f) tb =
          (st, .request i none t m hh b f, .error .typeError) := by
        unfold saveRequest
        rw [hgd]
      rw [hsr]
      refine ⟨iff_of_false (by simp) ?_, fun _ => ⟨rfl, by simp⟩⟩
      rintro ⟨-, hhas⟩
      unfold mapHas at hhas
      rw [hgi] at hhas
      cases hhas
    | some dd =>
      have hgd : getDirPath st (.request i none t m hh b f) = .ok dd := by
        unfold getDirPath
        simp [RufusObject.isCollection, RufusObject.id, hgi]
      have hc : (!(RufusObject.request i none t m hh b f).isCollection &&
          (RufusObject.request i none t m hh b f).parentId.isNone) = true := by
        simp [RufusObject.isCollection, RufusObject.parentId]
      refine ⟨iff_of_true ?_ ⟨rfl, by unfold mapHas; rw [hgi]; rfl⟩, ?_⟩
      · unfold saveRequest
        rw [hgd]
        simp [RufusObject.draft, RufusObject.typeName,
          saveInfoFile_invariant_eq st (.request i none t m hh b f) dd
            ((if f then "~" else "") ++ "request" ++ ".json") hc]
      · intro _
        constructor
        · unfold saveRequest
          rw [hgd]
          cases hid : i.isNone <;>
            simp [RufusObject.draft, RufusObject.typeName, RufusObject.id, hid,
              saveInfoFile_invariant_eq st (.request i none t m hh b f) dd
                ((if f then "~" else "") ++ "request" ++ ".json") hc]
        · unfold saveRequest
          rw [hgd]
          simp [RufusObject.draft, RufusObject.typeName,
            saveInfoFile_invariant_eq st (.request i none t m hh b f) dd
              ((if f then "~" else "") ++ "request" ++ ".json") hc]
  | some pv =>
    have hRHS : ¬ ((some pv = none) ∧ mapHas st.idToPathMap i = true) := by
      rintro ⟨hh2, -⟩
      cases hh2
    refine ⟨iff_of_false ?_ hRHS, fun hp => absurd hp (by simp)⟩
    intro habs
    cases hgd : getDirPath st (.request i (some pv) t m hh b f) with
    | error e =>
      have he := getDirPath_error_is_typeError st _ e hgd
      subst he
      unfold saveRequest at habs
      rw [hgd] at habs
      simp at habs
    | ok d =>
      rcases hsif : saveInfoFile st (.request i (some pv) t m hh b f) d
          ((if (RufusObject.request i (some pv) t m hh b f).draft then "~"
            else "") ++
            (RufusObject.request i (some pv) t m hh b f).typeName ++ ".json")
        with ⟨st1, o1, r1⟩
      have hnm : r1 ≠ .error .mustHaveParent := by
        intro hr
        have hcf : (!(RufusObject.request i (some pv) t m hh b
            f).isCollection &&
            (RufusObject.request i (some pv) t m hh b f).parentId.isNone) =
            false := by
          simp [RufusObject.isCollection, RufusObject.parentId]
        have h2 := (saveInfoFile_invariant_iff st
          (.request i (some pv) t m hh b f) d
          ((if (RufusObject.request i (some pv) t m hh b f).draft then "~"
            else "") ++
            (RufusObject.request i (some pv) t m hh b f).typeName ++
            ".json")).mp
        rw [hsif] at h2
        have h3 := h2 hr
        rw [hcf] at h3
        cases h3
      unfold saveRequest at habs
      rw [hgd] at habs
      cases r1 with
      | error e =>
        simp [hsif] at habs
        exact hnm (by rw [habs])
      | ok u =>
        cases tb with
        | none =>
          by_cases hex : fsExistsPath st1.fs (d ++ [TEXT_BODY_FILE_NAME]) = true
          · cases hul : fsUnlink st1.fs (d ++ [TEXT_BODY_FILE_NAME]) with
            | some fs2 => simp [hsif, hex, hul] at habs
            | none => simp [hsif, hex, hul] at habs
          · simp only [Bool.not_eq_true] at hex
            simp [hsif, hex] at habs
        | some text =>
          cases hb : o1.body with
          | none => simp [hsif, hb] at habs
          | some bb =>
            cases hw : fsWriteFile st1.fs (d ++ [if (o1.setBody (some {
                bb with bodyType := .text, text := none })).draft then
                DRAFT_TEXT_BODY_FILE_NAME else TEXT_BODY_FILE_NAME])
                (.blob text) with
            | some fs2 => simp [hsif, hb, hw] at habs
            | none => simp [hsif, hb, hw] at habs

theorem saveFolder_invariant_iff (st : St) (i p : Option String) (t : String)
    (cs : List RufusObject)
    (hNoneKey : mapGet st.idToPathMap none = none) :
    (((saveFolder st (.folder i p t cs)).2.2 = .error .mustHaveParent) ↔
      (p = none ∧ mapHas st.idToPathMap i = true)) ∧
    (p = none →
      (saveFolder st (.folder i p t cs)).1.fs = st.fs ∧
      (saveFolder st (.folder i p t cs)).2.2 ≠ .ok ()) := by
  cases p with
  | none =>
    cases hgi : mapGet st.idToPathMap i with
    | none =>
      have hgd : getDirPath st (.folder i none t cs) = .error .typeError := by
        unfold getDirPath
        simp [RufusObject.isCollection, RufusObject.id, RufusObject.parentId,
          hgi, hNoneKey]
      have hsr : saveFolder st (.folder i none t cs) =
          (st, .folder i none t cs, .error .typeError) := by
        unfold saveFolder
        rw [hgd]
      rw [hsr]
      refine ⟨iff_of_false (by simp) ?_, fun _ => ⟨rfl, by simp⟩⟩
      rintro ⟨-, hhas⟩
      unfold mapHas at hhas
      rw [hgi] at hhas
      cases hhas
    | some dd =>
      have hgd : getDirPath st (.folder i none t cs) = .ok dd := by
        unfold getDirPath
        simp [RufusObject.isCollection, RufusObject.id, hgi]
      have hc : (!(RufusObject.folder i none t cs).isCollection &&
          (RufusObject.folder i none t cs).parentId.isNone) = true := by
        simp [RufusObject.isCollection, RufusObject.parentId]
      refine ⟨iff_of_true ?_ ⟨rfl, by unfold mapHas; rw [hgi]; rfl⟩, ?_⟩
      · unfold saveFolder
        rw [hgd]
        simp [saveInfoFile_invariant_eq st (.folder i none t cs) dd
          ((RufusObject.folder i none t cs).typeName ++ ".json") hc]
      · intro _
        constructor
        · unfold saveFolder
          rw [hgd]
          cases hid : i.isNone <;>
            simp [RufusObject.id, hid,
              saveInfoFile_invariant_eq st (.folder i none t cs) dd
                ((RufusObject.folder i none t cs).typeName ++ ".json") hc]
        · unfold saveFolder
          rw [hgd]
          simp [saveInfoFile_invariant_eq st (.folder i none t cs) dd
            ((RufusObject.folder i none t cs).typeName ++ ".json") hc]
  | some pv =>
    have hRHS : ¬ ((some pv = none) ∧ mapHas st.idToPathMap i = true) := by
      rintro ⟨hh2, -⟩
      cases hh2
    refine ⟨iff_of_false ?_ hRHS, fun hp => absurd hp (by simp)⟩
    intro habs
    cases hgd : getDirPath st (.folder i (some pv) t cs) with
    | error e =>
      have he := getDirPath_error_is_typeError st _ e hgd
      subst he
      unfold saveFolder at habs
      rw [hgd] at habs
      simp at habs
    | ok d =>
      unfold saveFolder at habs
      rw [hgd] at habs
      have h2 := (saveInfoFile_invariant_iff st (.folder i (some pv) t cs) d
        ((RufusObject.folder i (some pv) t cs).typeName ++ ".json")).mp habs
      simp [RufusObject.isCollection, RufusObject.parentId] at h2

theorem saveCollection_no_invariant (st : St) (i : Option String) (t : String)
    (v : Option (List (String × String))) (dp : List String)
    (cs : List RufusObject) :
    (saveCollection st (.collection i t v dp cs)).2.2 ≠
      .error .mustHaveParent := by
  intro habs
  have hgd : getDirPath st (.collection i t v dp cs) = .ok dp := by
    unfold getDirPath
    simp [RufusObject.isCollection, RufusObject.dirPath]
  unfold saveCollection at habs
  rw [hgd] at habs
  have h2 := (saveInfoFile_invariant_iff st (.collection i t v dp cs) dp
    ((RufusObject.collection i t v dp cs).typeName ++ ".json")).mp habs
  simp [RufusObject.isCollection] at h2

/-- C8 as amended: provided no absent-id key is recorded in the path index,
a save of a request or folder throws the missing-parent invariant error
exactly when the parent identifier is null and the object's own identifier
has a recorded path (otherwise path resolution fails first, with a TypeError
rather than the invariant error: path.join is handed undefined); whenever the
parent identifier is null the operation fails one way or the other and the
file system is untouched, so no info file is written; saving a collection
never throws the invariant error. -/
theorem c8_save_invariant_error :
    (∀ (st : St) (i p : Option String) (t : String) (m : Option String)
      (hh : Option (List (String × String))) (b : Option RequestBody)
      (f : Bool) (tb : Option String),
      mapGet st.idToPathMap none = none →
      (((saveRequest st (.request i p t m hh b f) tb).2.2 =
          .error .mustHaveParent) ↔
        (p = none ∧ mapHas st.idToPathMap i = true)) ∧
      (p = none →
        (saveRequest st (.request i p t m hh b f) tb).1.fs = st.fs ∧
        (saveRequest st (.request i p t m hh b f) tb).2.2 ≠ .ok ())) ∧
    (∀ (st : St) (i p : Option String) (t : String) (cs : List RufusObject),
      mapGet st.idToPathMap none = none →
      (((saveFolder st (.folder i p t cs)).2.2 = .error .mustHaveParent) ↔
        (p = none ∧ mapHas st.idToPathMap i = true)) ∧
      (p = none →
        (saveFolder st (.folder i p t cs)).1.fs = st.fs ∧
        (saveFolder st (.folder i p t cs)).2.2 ≠ .ok ())) ∧
    (∀ (st : St) (i : Option String) (t : String)
      (v : Option (List (String × String))) (dp : List String)
      (cs : List RufusObject),
      (saveCollection st (.collection i t v dp cs)).2.2 ≠
        .error .mustHaveParent) :=
  ⟨fun st i p t m hh b f tb hNoneKey =>
      saveRequest_invariant_iff st i p t m hh b f tb hNoneKey,
    fun st i p t cs hNoneKey => saveFolder_invariant_iff st i p t cs hNoneKey,
    fun st i t v dp cs => saveCollection_no_invariant st i t v dp cs⟩

/-- State for the concrete invariant-error scenario: two recorded ids, no
absent-id key. -/
def c8St : St :=
  { fs := .dir [("c", .dir [("r", .dir []), ("f", .dir [])])],
    idToPathMap := [(some "r1", ["c", "r"]), (some "f1", ["c", "f"])],
    nextId := 0, rmLog := [] }

/-- Witness for the invariant-error theorem: a request and a folder with a
null parent but recorded path throw the invariant error and leave the file
system untouched; a collection save never throws it. -/
theorem c8_save_invariant_error_witness :
    (saveRequest c8St (.request (some "r1") none "R" none none none false)
      none).2.2 = .error .mustHaveParent ∧
    (saveRequest c8St (.request (some "r1") none "R" none none none false)
      none).1.fs = c8St.fs ∧
    (saveFolder c8St (.folder (some "f1") none "F" [])).2.2 =
      .error .mustHaveParent ∧
    (saveCollection c8St (.collection (some "c1") "C" none ["c"] [])).2.2 ≠
      .error .mustHaveParent :=
  ⟨(c8_save_invariant_error.1 c8St (some "r1") none "R" none none none false
      none (by decide)).1.mpr ⟨rfl, by decide⟩,
    ((c8_save_invariant_error.1 c8St (some "r1") none "R" none none none false
      none (by decide)).2 rfl).1,
    (c8_save_invariant_error.2.1 c8St (some "f1") none "F" []
      (by decide)).1.mpr ⟨rfl, by decide⟩,
    c8_save_invariant_error.2.2 c8St (some "c1") "C" none ["c"] []⟩

/-- C8 counterexample: a request that is not a Collection and has a null
parent identifier, but whose id has no recorded path, does not get the
invariant error: path resolution fails first with a TypeError (path.join on
undefined), so the error is not thrown exactly when the claim states. -/
theorem c8_unresolved_path_gives_typeError :
    (saveRequest c8St (.request (some "rX") none "R" none none none false)
      none).2.2 = .error .typeError := by decide

theorem setId_id (o : RufusObject) (i : Option String) : (o.setId i).id = i := by
  cases o <;> rfl

/-- C9: a non-Collection object with no identifier and a null parent
identifier makes saveInfoFile throw the missing-parent invariant error, yet
the object is still mutated first: the log statement assigns a fresh uuid to
its id field (and consumes one uuid from the source) before the check runs,
so the failed save returns an object different from the one passed in. -/
theorem c9_failed_save_still_assigns_id (st : St) (o : RufusObject)
    (d : List String) (fn : String) (hNC : o.isCollection = false)
    (hId : o.id = none) (hP : o.parentId = none) :
    saveInfoFile st o d fn =
      ({ st with nextId := st.nextId + 1 },
        o.setId (some (uuidStr st.nextId)), .error .mustHaveParent) ∧
    o.setId (some (uuidStr st.nextId)) ≠ o := by
  have hc : (!o.isCollection && o.parentId.isNone) = true := by
    rw [hNC, hP]
    rfl
  constructor
  · rw [saveInfoFile_invariant_eq st o d fn hc, hId]
    rfl
  · intro heq
    have h2 : (o.setId (some (uuidStr st.nextId))).id = o.id := by rw [heq]
    rw [setId_id, hId] at h2
    cases h2

/-- State used by the concrete id-assignment scenario. -/
def c9St : St :=
  { fs := .dir [], idToPathMap := [], nextId := 5, rmLog := [] }

/-- Witness for the failed-save mutation theorem at a concrete request with
no id and no parent. -/
theorem c9_failed_save_still_assigns_id_witness :
    saveInfoFile c9St (.request none none "R" none none none false)
      ["c", "r"] "request.json" =
      ({ c9St with nextId := c9St.nextId + 1 },
        (RufusObject.request none none "R" none none none false).setId
          (some (uuidStr c9St.nextId)), .error .mustHaveParent) ∧
    (RufusObject.request none none "R" none none none false).setId
      (some (uuidStr c9St.nextId)) ≠
      .request none none "R" none none none false :=
  c9_failed_save_still_assigns_id c9St
    (.request none none "R" none none none false) ["c", "r"] "request.json"
    (by decide) (by decide) (by decide)

theorem updatePathMapRecursively_request_eq (st : St) (i p : Option String)
    (t : String) (m : Option String) (hh : Option (List (String × String)))
    (b : Option RequestBody) (f : Bool) (q : List String) :
    updatePathMapRecursively st (.request i p t m hh b f) q =
      match mapGet st.idToPathMap i with
      | none => (st, .error .typeError)
      | some oldDirPath =>
        ({ st with
            idToPathMap :=
              mapSet st.idToPathMap i (q ++ [oldDirPath.getLastD ""]) },
          .ok ()) := rfl

theorem updatePathMapRecursively_folder_eq (st : St) (i p : Option String)
    (t : String) (cs : List RufusObject) (q : List String) :
    updatePathMapRecursively st (.folder i p t cs) q =
      match mapGet st.idToPathMap i with
      | none => (st, .error .typeError)
      | some oldDirPath =>
        updatePathMapList
          { st with
            idToPathMap :=
              mapSet st.idToPathMap i (q ++ [oldDirPath.getLastD ""]) } cs
          (q ++ [oldDirPath.getLastD ""]) := rfl

theorem updatePathMapRecursively_collection_eq (st : St) (i : Option String)
    (t : String) (v : Option (List (String × String))) (dp : List String)
    (cs : List RufusObject) (q : List String) :
    updatePathMapRecursively st (.collection i t v dp cs) q =
      match mapGet st.idToPathMap i with
      | none => (st, .error .typeError)
      | some oldDirPath =>
        ({ st with
            idToPathMap :=
              mapSet st.idToPathMap i (q ++ [oldDirPath.getLastD ""]) },
          .ok ()) := rfl

/-- Folder with one child request whose identifier is not in the path index. -/
def c10Folder : RufusObject :=
  .folder (some "f1") (some "c0") "F"
    [.request (some "r1") (some "f1") "A" none none none false]

/-- State for the concrete rename scenario with an unindexed child. -/
def c10St : St :=
  { fs := .dir [("c", .dir [("f", .dir [("folder.json",
      .file (.json c7Info))])])],
    idToPathMap := [(some "f1", ["c", "f"])], nextId := 0, rmLog := [] }

/-- Unindexed request to be moved between two indexed folders. -/
def c10Child : RufusObject :=
  .request (some "r1") (some "f1") "A" none none none false

/-- State for the concrete moveChild scenario with an unindexed child. -/
def c10MoveSt : St :=
  { fs := .dir [("c", .dir [
      ("f", .dir [("a", .dir [("request.json", .file (.json c7Info))])]),
      ("g", .dir [])])],
    idToPathMap := [(some "f1", ["c", "f"]), (some "g1", ["c", "g"])],
    nextId := 0, rmLog := [] }

/-- C10: the subtree re-indexing recovers each object's directory name from
its previously recorded path index entry with no fallback to its title: when
the entry is missing, path.basename is handed undefined and the TypeError
aborts the operation before the object's new path is recorded (first
conjunct, for every state and object). Consequently a rename of a folder
whose child is absent from the path index fails with the TypeError and
leaves the child unindexed (second conjunct), and a moveChild of a request
absent from the path index fails the same way after the directory has
already been moved on disk, leaving the moved subtree unindexed (third
conjunct). -/
theorem c10_reindex_requires_recorded_paths :
    (∀ (st : St) (c : RufusObject) (q : List String),
      mapGet st.idToPathMap c.id = none →
      updatePathMapRecursively st c q = (st, .error .typeError)) ∧
    ((rename c10St c10Folder "New Name").2.2 = .error .typeError ∧
      mapGet (rename c10St c10Folder "New Name").1.idToPathMap (some "r1") =
        none) ∧
    ((moveChild c10MoveSt c10Child
        (.folder (some "f1") (some "c0") "F" [c10Child])
        (.folder (some "g1") (some "c0") "G" [])).2.2.2 =
        .error .typeError ∧
      mapGet (moveChild c10MoveSt c10Child
        (.folder (some "f1") (some "c0") "F" [c10Child])
        (.folder (some "g1") (some "c0") "G" [])).1.idToPathMap (some "r1") =
        none ∧
      (moveChild c10MoveSt c10Child
        (.folder (some "f1") (some "c0") "F" [c10Child])
        (.folder (some "g1") (some "c0") "G" [])).1.fs.lookup
        ["c", "g", "a"] ≠ none) := by
  refine ⟨?_, by decide, by decide⟩
  intro st c q h
  cases c with
  | request i p t m hh b f =>
    simp only [RufusObject.id] at h
    rw [updatePathMapRecursively_request_eq, h]
  | folder i p t cs =>
    simp only [RufusObject.id] at h
    rw [updatePathMapRecursively_folder_eq, h]
  | collection i t v dp cs =>
    simp only [RufusObject.id] at h
    rw [updatePathMapRecursively_collection_eq, h]

/-- Witness for the re-indexing theorem at a concrete unindexed child. -/
theorem c10_reindex_requires_recorded_paths_witness :
    updatePathMapRecursively c10St c10Child ["c", "f"] =
      (c10St, .error .typeError) :=
  c10_reindex_requires_recorded_paths.1 c10St c10Child ["c", "f"] (by decide)
